import Mathlib

/-!
# HomePage.jsx: a shallow embedding

The component `src/pages/HomePage.jsx` is embedded as pure functions over an explicit
application state.

* JavaScript values that cross the network boundary are modelled by `JSVal`
  (the values `JSON.parse` can produce, plus `undefined`).
* JavaScript strings are sequences of UTF-16 code units (`JSString`).
* A JavaScript number is modelled by the rational value of a finite double: `NaN` and the
  infinities are not modelled. A division rounds its exact result to the nearest double, a
  tie going to the even neighbour (`roundToDouble`); `Math.round`, `Math.floor` and `%` are
  exact on doubles. Numbers that are only passed on (coordinates, distances) are carried
  unchanged.
* Every handler is run to completion against an oracle for the network (`Net`); it returns
  the new state, the requests it issued, what it wrote to the console and how it settled.
  Handlers run one at a time: the interleaving of handlers that wait for a response is not
  modelled.
-/

namespace HomePage

/-! ## JavaScript strings -/

/-- JavaScript string: a sequence of UTF-16 code units. -/
abbrev JSString := List Nat

/-- UTF-16 code units of one Unicode scalar value. -/
def utf16Units (c : Char) : List Nat :=
  if c.toNat < 65536 then [c.toNat]
  else [55296 + (c.toNat - 65536) / 1024, 56320 + (c.toNat - 65536) % 1024]

/-- JavaScript string denoted by a literal of the source text. -/
def jsStr (s : String) : JSString := s.data.flatMap utf16Units

/-- Worker of `decimal`: pushes the digits of `n`, least significant first, in front of
`acc`; `fuel` bounds the number of digits. -/
def decimalAux : Nat → Nat → JSString → JSString
  | 0, _, acc => acc
  | fuel + 1, n, acc =>
    if n / 10 = 0 then (48 + n % 10) :: acc
    else decimalAux fuel (n / 10) ((48 + n % 10) :: acc)

/-- Decimal digits of a natural number, most significant first: `Number::toString` on a
non-negative integer below `2^53`, and the rendering of an array index. -/
def decimal (n : Nat) : JSString := decimalAux (n + 1) n []

/-- Decimal rendering of an integer; a negative integer gets a leading minus sign. -/
def decimalInt (z : Int) : JSString :=
  if z < 0 then 45 :: decimal z.natAbs else decimal z.natAbs

/-- Number denoted by a string of decimal digits; it is used to show that `decimal` loses
nothing. -/
def digitsValue (digits : JSString) : Nat :=
  digits.foldl (fun value u => 10 * value + (u - 48)) 0

/-- Code points of a string, as the string iterator yields them: a high surrogate
followed by a low surrogate is one element, every other code unit is an element of its
own. -/
def codePoints : JSString → List JSString
  | [] => []
  | [u] => [[u]]
  | u :: v :: rest =>
    if 55296 ≤ u ∧ u ≤ 56319 ∧ 56320 ≤ v ∧ v ≤ 57343 then [u, v] :: codePoints rest
    else [u] :: codePoints (v :: rest)

/-! ## JavaScript numbers -/

/-- Round to the nearest integer, a tie going to the even neighbour. -/
def roundHalfEven (x : ℚ) : Int :=
  if x - ⌊x⌋ < 1 / 2 then ⌊x⌋
  else if 1 / 2 < x - ⌊x⌋ then ⌊x⌋ + 1
  else if ⌊x⌋ % 2 = 0 then ⌊x⌋ else ⌊x⌋ + 1

/-- Exponent of the unit in the last place of the doubles around `x`: 52 below the binary
exponent of `x`, and never below `-1074`, the exponent of the subnormal doubles. -/
def ulpExponent (x : ℚ) : Int :=
  if x = 0 then -1074 else max (Int.log 2 |x|) (-1022) - 52

/-- The double nearest to `x`, a tie going to the even neighbour: the rounding that IEEE 754
applies to the exact result of an arithmetic operation. It is meant for `|x|` below
`2 ^ 1024`; the operations of the component are divisions of a finite double by 60, whose
results are in that range. -/
def roundToDouble (x : ℚ) : ℚ :=
  (roundHalfEven (x / 2 ^ ulpExponent x) : ℚ) * 2 ^ ulpExponent x

/-- The rationals that are finite doubles. -/
def IsDouble (x : ℚ) : Prop := roundToDouble x = x ∧ |x| < 2 ^ 1024

/-! ## JavaScript values and errors -/

/-- Values that reach the component from outside: what `JSON.parse` produces, and
`undefined`. An object is the list of its own properties. -/
inductive JSVal where
  | undefined
  | null
  | bool (b : Bool)
  | num (q : ℚ)
  | str (s : JSString)
  | arr (elems : List JSVal)
  | obj (fields : List (JSString × JSVal))

/-- Exceptions the component can meet. -/
inductive JSError where
  /-- Thrown by the language: a property read on `undefined` or `null`, a call of a
  non-function, the destructuring of a non-iterable, a failed conversion to a primitive. -/
  | typeError
  /-- Rejection of an `axios` request: `status` is the HTTP status, or `0` when no response
  arrived. -/
  | requestFailed (status : Nat)
  deriving DecidableEq, Repr

/-- Parts of the host the component relies on and the repository does not contain. -/
structure Host where
  /-- Value of `import.meta.env.VITE_ORS_API_KEY`. -/
  apiKey : JSVal
  /-- Rendering by `Number::toString` of a number that is not an integer of absolute value
  below `2^53`. -/
  formatFloat : ℚ → JSString

/-- `Number::toString(q)`: an integer of absolute value below `2^53` is printed with its
decimal digits; every other number (a fraction, or an integer from `2^53` on, which is
printed with the shortest digits that denote the same double, or in exponent notation) is
left to the host's formatting. -/
def numberToString (host : Host) (q : ℚ) : JSString :=
  if q.den = 1 ∧ q.num.natAbs < 2 ^ 53 then decimalInt q.num else host.formatFloat q

namespace JSVal

/-- `ToBoolean(v)`. -/
def truthy : JSVal → Bool
  | undefined => false
  | null => false
  | bool b => b
  | num q => decide (q ≠ 0)
  | str s => !s.isEmpty
  | arr _ => true
  | obj _ => true

/-- Read `v.name` for one of the property names the component reads (`features`,
`geometry`, `coordinates`, `properties`, `summary`, `distance`, `duration`, `label`, `id`,
`isLocation`): none of them is a member of a built-in prototype, so only an object can
answer with something else than `undefined`; `undefined` and `null` throw. -/
def getProp (v : JSVal) (name : String) : Except JSError JSVal :=
  match v with
  | undefined => .error .typeError
  | null => .error .typeError
  | obj fields => .ok ((fields.lookup (jsStr name)).getD undefined)
  | _ => .ok undefined

/-- Test of `v` for an own property `name`; it is used to state the shape of request
bodies. -/
def hasOwn (v : JSVal) (name : String) : Bool :=
  match v with
  | obj fields => (fields.lookup (jsStr name)).isSome
  | _ => false

/-- Read `v?.name`: `undefined` when `v` is `undefined` or `null`. -/
def optProp (v : JSVal) (name : String) : JSVal :=
  match v with
  | obj fields => (fields.lookup (jsStr name)).getD undefined
  | _ => undefined

/-- Read `v[i]` for a literal index `i`. -/
def getIndex (v : JSVal) (i : Nat) : Except JSError JSVal :=
  match v with
  | undefined => .error .typeError
  | null => .error .typeError
  | arr elems => .ok (elems.getD i undefined)
  | str s => .ok (match s.get? i with
      | some u => str [u]
      | none => undefined)
  | obj fields => .ok ((fields.lookup (decimal i)).getD undefined)
  | _ => .ok undefined

/-- Bind the parameter pattern `[a, b]` to `v`: the first two values of the iterator of
`v`, `undefined` where the iterator is exhausted; a value that is not iterable throws. -/
def destructurePair (v : JSVal) : Except JSError (JSVal × JSVal) :=
  match v with
  | arr elems => .ok (elems.getD 0 undefined, elems.getD 1 undefined)
  | str s =>
    .ok (((codePoints s).get? 0).elim undefined str, ((codePoints s).get? 1).elim undefined str)
  | _ => .error .typeError

/-- Callback of `Array.prototype.map` applied to the elements from index `i` on. -/
def mapFrom (fn : JSVal → Nat → Except JSError JSVal) : Nat → List JSVal →
    Except JSError (List JSVal)
  | _, [] => .ok []
  | i, v :: vs =>
    match fn v i with
    | .error e => .error e
    | .ok w =>
      match mapFrom fn (i + 1) vs with
      | .error e => .error e
      | .ok ws => .ok (w :: ws)

/-- The call `v.map(fn)`: only an array has a `map` method (an own property `map` of a
parsed object is not a function). -/
def map (v : JSVal) (fn : JSVal → Nat → Except JSError JSVal) : Except JSError JSVal :=
  match v with
  | arr elems =>
    match mapFrom fn 0 elems with
    | .error e => .error e
    | .ok ws => .ok (arr ws)
  | _ => .error .typeError

mutual
/-- `ToString(v)`, as a template literal applies it. An array is joined with commas; a
parsed object is `[object Object]`, unless it has an own property `toString`, which is
not callable and makes the conversion throw. -/
def toStr (host : Host) : JSVal → Except JSError JSString
  | undefined => .ok (jsStr "undefined")
  | null => .ok (jsStr "null")
  | bool b => .ok (if b then jsStr "true" else jsStr "false")
  | num q => .ok (numberToString host q)
  | str s => .ok s
  | arr elems => joinStr host elems
  | obj fields =>
    if (fields.lookup (jsStr "toString")).isSome then .error .typeError
    else .ok (jsStr "[object Object]")
/-- `Array.prototype.join` with the separator `,`. -/
def joinStr (host : Host) : List JSVal → Except JSError JSString
  | [] => .ok []
  | [v] => elemStr host v
  | v :: w :: rest =>
    match elemStr host v with
    | .error e => .error e
    | .ok a =>
      match joinStr host (w :: rest) with
      | .error e => .error e
      | .ok b => .ok (a ++ 44 :: b)
/-- Text of one element inside `join`: empty for `undefined` and `null`. -/
def elemStr (host : Host) : JSVal → Except JSError JSString
  | undefined => .ok []
  | null => .ok []
  | bool b => .ok (if b then jsStr "true" else jsStr "false")
  | num q => .ok (numberToString host q)
  | str s => .ok s
  | arr elems => joinStr host elems
  | obj fields =>
    if (fields.lookup (jsStr "toString")).isSome then .error .typeError
    else .ok (jsStr "[object Object]")
end

end JSVal

/-! ## `formatDuration` (lines 77-82) -/

/-- `Math.round(x)`: the nearest integer, a tie going towards `+∞`. -/
def mathRound (x : ℚ) : Int := ⌊x + 1 / 2⌋

/-- `Math.floor(x)`. -/
def mathFloor (x : ℚ) : Int := ⌊x⌋

/-- `formatDuration(seconds)`:
```
const minutes = Math.round(seconds / 60);
const hours = Math.floor(minutes / 60);
const remainingMinutes = minutes % 60;
return hours > 0 ? `${hours}h ${remainingMinutes}min` : `${remainingMinutes}min`;
```
Both divisions are divisions of doubles; `%` on the integer `minutes` is the truncating
remainder, which is exact. -/
def formatDuration (host : Host) (seconds : ℚ) : JSString :=
  let minutes : Int := mathRound (roundToDouble (seconds / 60))
  let hours : Int := mathFloor (roundToDouble ((minutes : ℚ) / 60))
  let remainingMinutes : Int := Int.tmod minutes 60
  if hours > 0 then
    numberToString host hours ++ jsStr "h " ++ numberToString host remainingMinutes ++ jsStr "min"
  else
    numberToString host remainingMinutes ++ jsStr "min"

/-! ## Application state, network and effects -/

/-- Entry of the incident list: the object `{ type, position }`. -/
structure Incident where
  type : JSString
  position : JSVal

/-- The `useState` cells of `HomePage` (lines 85-102). -/
structure State where
  userPosition : JSVal
  startCoords : JSVal
  destination : JSVal
  destinationCoords : JSVal
  route : JSVal
  routeInfo : JSVal
  avoidTolls : Bool
  startInput : JSString
  endInput : JSString
  startOptions : JSVal
  endOptions : JSVal
  incidentDialogOpen : Bool
  selectedIncident : JSString
  incidents : List Incident

/-- State of the first render: the initial values handed to `useState`. -/
def State.initial : State where
  userPosition := .null
  startCoords := .null
  destination := .str []
  destinationCoords := .null
  route := .null
  routeInfo := .null
  avoidTolls := false
  startInput := []
  endInput := []
  startOptions := .arr []
  endOptions := .arr []
  incidentDialogOpen := false
  selectedIncident := []
  incidents := []

/-- Request handed to `axios`. -/
inductive Request where
  | get (url : String) (params : List (String × JSVal))
  | post (url : String) (body : JSVal) (headers : List (String × JSVal))

/-- The network as a handler sees it: a request is answered by the `data` of its response,
or rejected. -/
abbrev Net := Request → Except JSError JSVal

/-- Line written by `console.error`. -/
inductive Logged where
  | geolocation (code : Nat)
  | autocomplete (error : JSError)
  | route (error : JSError)

/-- What a handler can change: the state cells, the requests sent so far and the console. -/
structure World where
  state : State
  requests : List Request
  console : List Logged

/-- Computation of a handler: it ends normally with a value or throws, and in both cases
leaves a world behind. -/
def Eff (α : Type) : Type := World → Except JSError α × World

namespace Eff

/-- Normal completion. -/
def pure {α : Type} (a : α) : Eff α := fun w => (.ok a, w)

/-- Sequencing: an exception skips the rest and keeps the world reached so far. -/
def bind {α β : Type} (m : Eff α) (f : α → Eff β) : Eff β := fun w =>
  match m w with
  | (.ok a, w1) => f a w1
  | (.error e, w1) => (.error e, w1)

instance : Monad Eff where
  pure := Eff.pure
  bind := Eff.bind

/-- Evaluation of an expression that may throw. -/
def lift {α : Type} (x : Except JSError α) : Eff α := fun w => (x, w)

/-- The statement `try { body } catch (error) { handler }`. -/
def tryCatch {α : Type} (body : Eff α) (handler : JSError → Eff α) : Eff α := fun w =>
  match body w with
  | (.ok a, w1) => (.ok a, w1)
  | (.error e, w1) => handler e w1

/-- Update of the state cells. -/
def modify (f : State → State) : Eff Unit := fun w => (.ok (), { w with state := f w.state })

end Eff

/-- The call `await axios.get(url, { params })`, yielding `response.data`. -/
def axiosGet (net : Net) (url : String) (params : List (String × JSVal)) : Eff JSVal :=
  fun w => (net (.get url params), { w with requests := w.requests ++ [.get url params] })

/-- The call `await axios.post(url, body, { headers })`, yielding `response.data`. -/
def axiosPost (net : Net) (url : String) (body : JSVal) (headers : List (String × JSVal)) :
    Eff JSVal :=
  fun w => (net (.post url body headers),
    { w with requests := w.requests ++ [.post url body headers] })

/-- The call `console.error(...)`. -/
def consoleError (entry : Logged) : Eff Unit :=
  fun w => (.ok (), { w with console := w.console ++ [entry] })

def setUserPosition (v : JSVal) : Eff Unit := Eff.modify fun s => { s with userPosition := v }

def setStartCoords (v : JSVal) : Eff Unit := Eff.modify fun s => { s with startCoords := v }

def setDestination (v : JSVal) : Eff Unit := Eff.modify fun s => { s with destination := v }

def setDestinationCoords (v : JSVal) : Eff Unit :=
  Eff.modify fun s => { s with destinationCoords := v }

def setRoute (v : JSVal) : Eff Unit := Eff.modify fun s => { s with route := v }

def setRouteInfo (v : JSVal) : Eff Unit := Eff.modify fun s => { s with routeInfo := v }

def setAvoidTolls (b : Bool) : Eff Unit := Eff.modify fun s => { s with avoidTolls := b }

def setStartInput (v : JSString) : Eff Unit := Eff.modify fun s => { s with startInput := v }

def setEndInput (v : JSString) : Eff Unit := Eff.modify fun s => { s with endInput := v }

def setStartOptions (v : JSVal) : Eff Unit := Eff.modify fun s => { s with startOptions := v }

def setEndOptions (v : JSVal) : Eff Unit := Eff.modify fun s => { s with endOptions := v }

def setIncidentDialogOpen (b : Bool) : Eff Unit :=
  Eff.modify fun s => { s with incidentDialogOpen := b }

def setSelectedIncident (v : JSString) : Eff Unit :=
  Eff.modify fun s => { s with selectedIncident := v }

/-- Functional update `setIncidents((prev) => f(prev))`. -/
def setIncidents (f : List Incident → List Incident) : Eff Unit :=
  Eff.modify fun s => { s with incidents := f s.incidents }

/-! ## Geolocation bootstrap (lines 104-118) -/

/-- Answer of `navigator.geolocation.getCurrentPosition`. -/
inductive GeoResult where
  | success (latitude longitude : ℚ)
  | failure (code : Nat)

/-- Fallback position of the error callback, `[48.8566, 2.3522]`. -/
def fallbackPosition : JSVal := .arr [.num 48.8566, .num 2.3522]

/-- Body of the mount effect; `geolocation` is `none` when `navigator.geolocation` is
missing:
```
if (navigator.geolocation) {
  navigator.geolocation.getCurrentPosition(
    (pos) => { const coords = [pos.coords.latitude, pos.coords.longitude];
               setUserPosition(coords); setStartCoords(coords); },
    (err) => { console.error("Erreur géolocalisation :", err);
               setUserPosition([48.8566, 2.3522]); });
}
``` -/
def geolocationEffect (geolocation : Option GeoResult) : Eff Unit :=
  match geolocation with
  | some (.success latitude longitude) => do
    let coords := JSVal.arr [.num latitude, .num longitude]
    setUserPosition coords
    setStartCoords coords
  | some (.failure code) => do
    consoleError (.geolocation code)
    setUserPosition fallbackPosition
  | none => pure ()

/-! ## `geocodeAddress` (lines 120-131) -/

def geocodeUrl : String := "https://api.openrouteservice.org/geocode/search"

def autocompleteUrl : String := "https://api.openrouteservice.org/geocode/autocomplete"

def directionsUrl : String :=
  "https://api.openrouteservice.org/v2/directions/driving-car/geojson"

/-- Request that `geocodeAddress(address)` sends. -/
def geocodeRequest (host : Host) (address : JSVal) : Request :=
  .get geocodeUrl
    [("api_key", host.apiKey), ("text", address), ("boundary.country", .str (jsStr "FR"))]

/-- The two statements of `geocodeAddress` after the request, on `data = response.data`:
```
const coords = response.data.features[0].geometry.coordinates;
return [coords[1], coords[0]];
``` -/
def firstCandidate (data : JSVal) : Except JSError JSVal := do
  let features ← data.getProp "features"
  let first ← features.getIndex 0
  let geometry ← first.getProp "geometry"
  let coords ← geometry.getProp "coordinates"
  let c1 ← coords.getIndex 1
  let c0 ← coords.getIndex 0
  pure (.arr [c1, c0])

/-- `geocodeAddress(address)`:
```
const response = await axios.get(url, { params: { api_key, text: address, ... } });
const coords = response.data.features[0].geometry.coordinates;
return [coords[1], coords[0]];
``` -/
def geocodeAddress (host : Host) (net : Net) (address : JSVal) : Eff JSVal := do
  let data ← axiosGet net geocodeUrl
    [("api_key", host.apiKey), ("text", address), ("boundary.country", .str (jsStr "FR"))]
  Eff.lift (firstCandidate data)

/-! ## `fetchAutocomplete` (lines 133-156) -/

/-- Callback of the `map` in `fetchAutocomplete`:
```
(f, i) => ({ label: f.properties.label,
             key: f.properties.id || `${f.properties.label}-${i}` })
``` -/
def suggestionOf (host : Host) (f : JSVal) (i : Nat) : Except JSError JSVal := do
  let properties ← f.getProp "properties"
  let label ← properties.getProp "label"
  let id ← properties.getProp "id"
  let key ← if id.truthy then pure id else do
    let text ← JSVal.toStr host label
    pure (JSVal.str (text ++ jsStr "-" ++ decimal i))
  pure (.obj [(jsStr "label", label), (jsStr "key", key)])

/-- The suggestion list computed from `data = res.data`:
`res.data.features.map((f, i) => ...)`. -/
def suggestions (host : Host) (data : JSVal) : Except JSError JSVal := do
  let features ← data.getProp "features"
  features.map (suggestionOf host)

/-- Request that `fetchAutocomplete(input, ...)` sends. -/
def autocompleteRequest (host : Host) (input : JSString) : Request :=
  .get autocompleteUrl
    [("api_key", host.apiKey), ("text", .str input), ("size", .num 5),
      ("boundary_country", .str (jsStr "FR"))]

/-- `fetchAutocomplete(input, setOptions)`:
```
if (input.length < 3) { setOptions([]); return; }
try {
  const res = await axios.get(url, { params: { api_key, text: input, size: 5, ... } });
  const results = res.data.features.map(...);
  setOptions(results);
} catch (error) { console.error("Erreur autocomplete :", error); }
``` -/
def fetchAutocomplete (host : Host) (net : Net) (input : JSString)
    (setOptions : JSVal → Eff Unit) : Eff Unit :=
  if input.length < 3 then setOptions (.arr [])
  else
    Eff.tryCatch (do
      let data ← axiosGet net autocompleteUrl
        [("api_key", host.apiKey), ("text", .str input), ("size", .num 5),
          ("boundary_country", .str (jsStr "FR"))]
      let results ← Eff.lift (suggestions host data)
      setOptions results)
    (fun error => consoleError (.autocomplete error))

/-! ## `calculateRoute` (lines 158-201) -/

/-- Callback of the `map` over the route geometry, `([lng, lat]) => [lat, lng]`. -/
def swapLngLat (pair : JSVal) (_i : Nat) : Except JSError JSVal := do
  let (lng, lat) ← pair.destructurePair
  pure (.arr [lat, lng])

/-- Body of the directions request:
```
const body = { coordinates: [[startCoords[1], startCoords[0]],
                             [destCoords[1], destCoords[0]]] };
if (avoidTolls) { body.options = { avoid_features: ['tollways'] }; }
``` -/
def routeBody (startCoords destCoords : JSVal) (avoidTolls : Bool) : Except JSError JSVal := do
  let s1 ← startCoords.getIndex 1
  let s0 ← startCoords.getIndex 0
  let d1 ← destCoords.getIndex 1
  let d0 ← destCoords.getIndex 0
  let coordinates := (jsStr "coordinates", JSVal.arr [.arr [s1, s0], .arr [d1, d0]])
  if avoidTolls then
    pure (.obj [coordinates,
      (jsStr "options", .obj [(jsStr "avoid_features", .arr [.str (jsStr "tollways")])])])
  else
    pure (.obj [coordinates])

/-- The route geometry read from `data = response.data`:
```
response.data.features[0].geometry.coordinates.map(([lng, lat]) => [lat, lng])
``` -/
def routeGeometry (data : JSVal) : Except JSError JSVal := do
  let features ← data.getProp "features"
  let first ← features.getIndex 0
  let lineString ← first.getProp "geometry"
  let coordinates ← lineString.getProp "coordinates"
  coordinates.map swapLngLat

/-- The route summary read from `data = response.data`:
```
const summary = response.data.features[0].properties.summary;
... { distance: summary.distance, duration: summary.duration }
``` -/
def routeSummary (data : JSVal) : Except JSError JSVal := do
  let features ← data.getProp "features"
  let first ← features.getIndex 0
  let properties ← first.getProp "properties"
  let summary ← properties.getProp "summary"
  let distance ← summary.getProp "distance"
  let duration ← summary.getProp "duration"
  pure (.obj [(jsStr "distance", distance), (jsStr "duration", duration)])

/-- Headers of the directions request. -/
def directionsHeaders (host : Host) : List (String × JSVal) :=
  [("Authorization", host.apiKey), ("Content-Type", .str (jsStr "application/json"))]

/-- Request that `calculateRoute` posts for a given body. -/
def directionsRequest (host : Host) (body : JSVal) : Request :=
  .post directionsUrl body (directionsHeaders host)

/-- `calculateRoute()`, run with the state `snap` of the render that created it:
```
if (!startCoords || !destination) return;
try {
  const destCoords = await geocodeAddress(destination);
  setDestinationCoords(destCoords);
  ... body ...
  const response = await axios.post(url, body, { headers });
  const geometry = response.data.features[0].geometry.coordinates.map(
    ([lng, lat]) => [lat, lng]);
  setRoute(geometry);
  const summary = response.data.features[0].properties.summary;
  setRouteInfo({ distance: summary.distance, duration: summary.duration });
} catch (error) { console.error("Erreur calcul itinéraire :", error); }
``` -/
def calculateRoute (host : Host) (net : Net) (snap : State) : Eff Unit :=
  if !snap.startCoords.truthy || !snap.destination.truthy then pure ()
  else
    Eff.tryCatch (do
      let destCoords ← geocodeAddress host net snap.destination
      setDestinationCoords destCoords
      let body ← Eff.lift (routeBody snap.startCoords destCoords snap.avoidTolls)
      let data ← axiosPost net directionsUrl body (directionsHeaders host)
      let geometry ← Eff.lift (routeGeometry data)
      setRoute geometry
      let info ← Eff.lift (routeSummary data)
      setRouteInfo info)
    (fun error => consoleError (.route error))

/-! ## `handleAddIncident` (lines 203-212) -/

/-- `handleAddIncident()`, run with the state `snap` of the render that created it:
```
if (!userPosition || !selectedIncident) return;
const newIncident = { type: selectedIncident, position: userPosition };
setIncidents((prev) => [...prev, newIncident]);
setIncidentDialogOpen(false);
setSelectedIncident('');
``` -/
def handleAddIncident (snap : State) : Eff Unit :=
  if !snap.userPosition.truthy || snap.selectedIncident.isEmpty then pure ()
  else do
    let newIncident : Incident :=
      { type := snap.selectedIncident, position := snap.userPosition }
    setIncidents (fun prev => prev ++ [newIncident])
    setIncidentDialogOpen false
    setSelectedIncident []

/-! ## Handlers of the two address fields (lines 226-241 and 256-264) -/

/-- The start field's `onInputChange`:
```
setStartInput(val);
if (val.length >= 3) { fetchAutocomplete(val, setStartOptions); }
else { setStartOptions([]); }
``` -/
def startOnInputChange (host : Host) (net : Net) (val : JSString) : Eff Unit := do
  setStartInput val
  if val.length ≥ 3 then fetchAutocomplete host net val setStartOptions
  else setStartOptions (.arr [])

/-- The start field's `onChange`, an `async` function without `try`:
```
if (val?.isLocation) { setStartCoords(userPosition); }
else if (val?.label) {
  const coords = await geocodeAddress(val.label);
  setStartCoords(coords);
}
``` -/
def startOnChange (host : Host) (net : Net) (snap : State) (val : JSVal) : Eff Unit :=
  if (val.optProp "isLocation").truthy then setStartCoords snap.userPosition
  else if (val.optProp "label").truthy then do
    let label ← Eff.lift (val.getProp "label")
    let coords ← geocodeAddress host net label
    setStartCoords coords
  else pure ()

/-- The destination field's `onInputChange`:
```
setEndInput(val);
fetchAutocomplete(val, setEndOptions);
``` -/
def endOnInputChange (host : Host) (net : Net) (val : JSString) : Eff Unit := do
  setEndInput val
  fetchAutocomplete host net val setEndOptions

/-- The destination field's `onChange`: `if (val?.label) { setDestination(val.label); }`. -/
def endOnChange (val : JSVal) : Eff Unit :=
  if (val.optProp "label").truthy then do
    let label ← Eff.lift (val.getProp "label")
    setDestination label
  else pure ()

/-! ## The component as a transition system -/

/-- Events the component reacts to; an event that uses the network carries the network's
answers. -/
inductive Action where
  | mount (geolocation : Option GeoResult)
  | startInputChange (val : JSString) (net : Net)
  | startChange (val : JSVal) (net : Net)
  | endInputChange (val : JSString) (net : Net)
  | endChange (val : JSVal)
  | avoidTollsChange (checked : Bool)
  | calculate (net : Net)
  | openIncidentDialog
  | closeIncidentDialog
  | selectIncident (value : JSString)
  | confirmIncident

/-- Handler that the render of state `snap` attaches to an event. -/
def handlerOf (host : Host) (snap : State) : Action → Eff Unit
  | .mount geolocation => geolocationEffect geolocation
  | .startInputChange val net => startOnInputChange host net val
  | .startChange val net => startOnChange host net snap val
  | .endInputChange val net => endOnInputChange host net val
  | .endChange val => endOnChange val
  | .avoidTollsChange checked => setAvoidTolls checked
  | .calculate net => calculateRoute host net snap
  | .openIncidentDialog => setIncidentDialogOpen true
  | .closeIncidentDialog => setIncidentDialogOpen false
  | .selectIncident value => setSelectedIncident value
  | .confirmIncident => handleAddIncident snap

/-- Run a handler to completion from state `s`, with nothing sent and nothing logged yet. -/
def runFrom (s : State) (handler : Eff Unit) : Except JSError Unit × World :=
  handler { state := s, requests := [], console := [] }

/-- State after one event. -/
def step (host : Host) (s : State) (a : Action) : State :=
  (runFrom s (handlerOf host s a)).2.state

/-- State after a sequence of events. -/
def run (host : Host) (s : State) (actions : List Action) : State :=
  actions.foldl (step host) s

/-! ## The suggestion list in the words of the specification -/

/-- Suggestion described for the feature at index `i` with the given label and `id`
value: `{label, key}` where the key is the `id` when it is truthy and otherwise the label,
a hyphen and the decimal index. It is written from the words of the specification, to be
compared with `suggestionOf`. -/
def specSuggestion (i : Nat) (label : JSString) (id : JSVal) : JSVal :=
  .obj [(jsStr "label", .str label),
    (jsStr "key", if id.truthy then id else .str (label ++ jsStr "-" ++ decimal i))]

/-- Suggestion list described for features with the given labels and `id` values, in
their order. -/
def specSuggestions (items : List (JSString × JSVal)) : List JSVal :=
  items.enum.map fun e => specSuggestion e.1 e.2.1 e.2.2

/-! ## Concrete inputs used to evaluate the definitions -/

/-- A host with a key and a placeholder number formatting. -/
def sampleHost : Host where
  apiKey := .str (jsStr "demo-key")
  formatFloat := fun _ => jsStr "NaN"

/-- A network that answers every `GET` with `geocode` and every `POST` with `directions`. -/
def sampleNet (geocode directions : Except JSError JSVal) : Net := fun request =>
  match request with
  | .get _ _ => geocode
  | .post _ _ _ => directions

/-- Geocoding answer with one candidate, Lyon at `[lon, lat] = [4.85, 45.75]`. -/
def lyonGeocode : JSVal :=
  .obj [(jsStr "features", .arr [.obj [(jsStr "geometry",
    .obj [(jsStr "coordinates", .arr [.num 4.85, .num 45.75])])]])]

/-- Geocoding answer without candidates. -/
def emptyGeocode : JSVal := .obj [(jsStr "features", .arr [])]

/-- Directions answer with a two-point geometry and a summary. -/
def lyonDirections : JSVal :=
  .obj [(jsStr "features", .arr [.obj [
    (jsStr "geometry", .obj [(jsStr "coordinates",
      .arr [.arr [.num 2.3522, .num 48.8566], .arr [.num 4.85, .num 45.75]])]),
    (jsStr "properties", .obj [(jsStr "summary",
      .obj [(jsStr "distance", .num 465000), (jsStr "duration", .num 16200)])])]])]

/-- Directions answer with a geometry and no `properties.summary`. -/
def directionsWithoutSummary : JSVal :=
  .obj [(jsStr "features", .arr [.obj [
    (jsStr "geometry", .obj [(jsStr "coordinates",
      .arr [.arr [.num 2.3522, .num 48.8566], .arr [.num 4.85, .num 45.75]])]),
    (jsStr "properties", .obj [])]])]

/-- State of a user located in Paris who has chosen the destination `Lyon`. -/
def parisState : State :=
  { State.initial with
    userPosition := .arr [.num 48.8566, .num 2.3522]
    startCoords := .arr [.num 48.8566, .num 2.3522]
    destination := .str (jsStr "Lyon") }

/-- Network on which Lyon is found and the route is computed. -/
def lyonNet : Net := sampleNet (.ok lyonGeocode) (.ok lyonDirections)

/-- Network on which geocoding finds no candidate. -/
def noCandidateNet : Net := sampleNet (.ok emptyGeocode) (.ok lyonDirections)

/-- Network on which no request gets a response. -/
def offlineNet : Net := sampleNet (.error (.requestFailed 0)) (.error (.requestFailed 0))

/-- Network on which Lyon is found and the directions request is rejected. -/
def rejectingNet : Net := sampleNet (.ok lyonGeocode) (.error (.requestFailed 500))

/-- Network on which Lyon is found and the directions response lacks its summary. -/
def noSummaryNet : Net := sampleNet (.ok lyonGeocode) (.ok directionsWithoutSummary)

/-- State of a user in Paris who has opened the incident dialog and selected `accident`. -/
def reportingState : State :=
  { parisState with incidentDialogOpen := true, selectedIncident := jsStr "accident" }

/-- Autocomplete answer with one feature whose `id` is the empty string. -/
def emptyIdAutocomplete : JSVal :=
  .obj [(jsStr "features", .arr [.obj [(jsStr "properties",
    .obj [(jsStr "label", .str (jsStr "Paris")), (jsStr "id", .str [])])]])]

/-- Autocomplete answer with two features of the same label, the first without `id`, the
second with one. -/
def parisAutocomplete : JSVal :=
  .obj [(jsStr "features", .arr [
    .obj [(jsStr "properties", .obj [(jsStr "label", .str (jsStr "Paris"))])],
    .obj [(jsStr "properties", .obj [(jsStr "label", .str (jsStr "Paris")),
      (jsStr "id", .str (jsStr "node/17807753"))])]])]

/-- Autocomplete answer with two features of the same label and no `id`. -/
def twinAutocomplete : JSVal :=
  .obj [(jsStr "features", .arr [
    .obj [(jsStr "properties", .obj [(jsStr "label", .str (jsStr "Paris"))])],
    .obj [(jsStr "properties", .obj [(jsStr "label", .str (jsStr "Paris"))])]])]

/-- Suggestion `{ label: "Lyon", key: "whosonfirst:locality:101749467" }` picked in an
address field. -/
def lyonOption : JSVal :=
  .obj [(jsStr "label", .str (jsStr "Lyon")),
    (jsStr "key", .str (jsStr "whosonfirst:locality:101749467"))]

/-! ## Evaluation rules of property reads -/

@[simp] theorem JSVal.getIndex_arr (elems : List JSVal) (i : Nat) :
    (JSVal.arr elems).getIndex i = .ok (elems.getD i .undefined) := rfl

@[simp] theorem JSVal.getProp_obj (fields : List (JSString × JSVal)) (name : String) :
    (JSVal.obj fields).getProp name = .ok ((fields.lookup (jsStr name)).getD .undefined) := rfl

@[simp] theorem JSVal.getProp_undefined (name : String) :
    JSVal.undefined.getProp name = .error .typeError := rfl

@[simp] theorem JSVal.getProp_null (name : String) :
    JSVal.null.getProp name = .error .typeError := rfl

/-! ## Evaluation rules of the effect monad -/

@[simp] theorem Eff.pure_run {α : Type} (a : α) (w : World) :
    (Pure.pure a : Eff α) w = (.ok a, w) := rfl

@[simp] theorem Eff.bind_run {α β : Type} (m : Eff α) (f : α → Eff β) (w : World) :
    (m >>= f) w = match m w with
      | (.ok a, w1) => f a w1
      | (.error e, w1) => (.error e, w1) := rfl

@[simp] theorem Eff.lift_run {α : Type} (x : Except JSError α) (w : World) :
    Eff.lift x w = (x, w) := rfl

@[simp] theorem Eff.tryCatch_run {α : Type} (body : Eff α) (handler : JSError → Eff α)
    (w : World) :
    Eff.tryCatch body handler w = match body w with
      | (.ok a, w1) => (.ok a, w1)
      | (.error e, w1) => handler e w1 := rfl

@[simp] theorem Eff.modify_run (f : State → State) (w : World) :
    Eff.modify f w = (.ok (), { w with state := f w.state }) := rfl

@[simp] theorem axiosGet_run (net : Net) (url : String) (params : List (String × JSVal))
    (w : World) :
    axiosGet net url params w =
      (net (.get url params), { w with requests := w.requests ++ [.get url params] }) := rfl

@[simp] theorem axiosPost_run (net : Net) (url : String) (body : JSVal)
    (headers : List (String × JSVal)) (w : World) :
    axiosPost net url body headers w =
      (net (.post url body headers),
        { w with requests := w.requests ++ [.post url body headers] }) := rfl

@[simp] theorem consoleError_run (entry : Logged) (w : World) :
    consoleError entry w = (.ok (), { w with console := w.console ++ [entry] }) := rfl

/-- Result and world of `geocodeAddress`, in terms of the answer to its request. -/
theorem geocodeAddress_run (host : Host) (net : Net) (address : JSVal) (w : World) :
    geocodeAddress host net address w =
      (net (geocodeRequest host address) >>= firstCandidate,
       { w with requests := w.requests ++ [geocodeRequest host address] }) := by
  simp only [geocodeAddress, geocodeRequest, Eff.bind_run, axiosGet_run, Eff.lift_run]
  cases net (Request.get geocodeUrl
    [("api_key", host.apiKey), ("text", address), ("boundary.country", .str (jsStr "FR"))])
    <;> rfl

/-- Every path through `calculateRoute`, with the state, requests and console it leaves. -/
theorem calculateRoute_run (host : Host) (net : Net) (s : State) :
    runFrom s (calculateRoute host net s) =
      if !s.startCoords.truthy || !s.destination.truthy then
        (.ok (), { state := s, requests := [], console := [] })
      else
        match net (geocodeRequest host s.destination) >>= firstCandidate with
        | .error e =>
          (.ok (), { state := s, requests := [geocodeRequest host s.destination],
                     console := [.route e] })
        | .ok destCoords =>
          match routeBody s.startCoords destCoords s.avoidTolls with
          | .error e =>
            (.ok (), { state := { s with destinationCoords := destCoords },
                       requests := [geocodeRequest host s.destination],
                       console := [.route e] })
          | .ok body =>
            match net (directionsRequest host body) with
            | .error e =>
              (.ok (), { state := { s with destinationCoords := destCoords },
                         requests := [geocodeRequest host s.destination,
                           directionsRequest host body],
                         console := [.route e] })
            | .ok data =>
              match routeGeometry data with
              | .error e =>
                (.ok (), { state := { s with destinationCoords := destCoords },
                           requests := [geocodeRequest host s.destination,
                             directionsRequest host body],
                           console := [.route e] })
              | .ok geometry =>
                match routeSummary data with
                | .error e =>
                  (.ok (), { state := { s with destinationCoords := destCoords,
                                               route := geometry },
                             requests := [geocodeRequest host s.destination,
                               directionsRequest host body],
                             console := [.route e] })
                | .ok info =>
                  (.ok (), { state := { s with destinationCoords := destCoords,
                                               route := geometry, routeInfo := info },
                             requests := [geocodeRequest host s.destination,
                               directionsRequest host body],
                             console := [] }) := by
  unfold calculateRoute runFrom
  split
  · rfl
  · simp only [Eff.tryCatch_run, Eff.bind_run, geocodeAddress_run, setDestinationCoords,
      setRoute, setRouteInfo, Eff.modify_run, Eff.lift_run, axiosPost_run, consoleError_run,
      directionsRequest, List.nil_append]
    cases net (geocodeRequest host s.destination) >>= firstCandidate with
    | error e => rfl
    | ok destCoords =>
      simp only []
      cases routeBody s.startCoords destCoords s.avoidTolls with
      | error e => rfl
      | ok body =>
        simp only []
        cases net (Request.post directionsUrl body (directionsHeaders host)) with
        | error e => rfl
        | ok data =>
          simp only []
          cases routeGeometry data with
          | error e => rfl
          | ok geometry =>
            simp only []
            cases routeSummary data with
            | error e => rfl
            | ok info => rfl

/-- A truthy value can be indexed without an exception. -/
theorem JSVal.getIndex_of_truthy (v : JSVal) (i : Nat) (h : v.truthy = true) :
    ∃ x, v.getIndex i = .ok x := by
  cases v with
  | undefined => simp [JSVal.truthy] at h
  | null => simp [JSVal.truthy] at h
  | bool b => exact ⟨_, rfl⟩
  | num q => exact ⟨_, rfl⟩
  | str t => exact ⟨_, rfl⟩
  | arr elems => exact ⟨_, rfl⟩
  | obj fields => exact ⟨_, rfl⟩

/-- The request body, once the four coordinate reads are known. -/
theorem routeBody_eq (startCoords destCoords : JSVal) (avoidTolls : Bool)
    (s1 s0 d1 d0 : JSVal) (hs1 : startCoords.getIndex 1 = .ok s1)
    (hs0 : startCoords.getIndex 0 = .ok s0) (hd1 : destCoords.getIndex 1 = .ok d1)
    (hd0 : destCoords.getIndex 0 = .ok d0) :
    routeBody startCoords destCoords avoidTolls =
      .ok (if avoidTolls then
          .obj [(jsStr "coordinates", .arr [.arr [s1, s0], .arr [d1, d0]]),
            (jsStr "options",
              .obj [(jsStr "avoid_features", .arr [.str (jsStr "tollways")])])]
        else .obj [(jsStr "coordinates", .arr [.arr [s1, s0], .arr [d1, d0]])]) := by
  simp only [routeBody, bind, Except.bind, hs1, hs0, hd1, hd0]
  cases avoidTolls <;> rfl

/-- Requests of `calculateRoute` once the destination is geocoded and the body is built. -/
theorem calculateRoute_requests (host : Host) (net : Net) (s : State)
    (destCoords body : JSVal) (hstart : s.startCoords.truthy = true)
    (hdest : s.destination.truthy = true)
    (hgeo : net (geocodeRequest host s.destination) >>= firstCandidate = .ok destCoords)
    (hbody : routeBody s.startCoords destCoords s.avoidTolls = .ok body) :
    (runFrom s (calculateRoute host net s)).2.requests =
      [geocodeRequest host s.destination, directionsRequest host body] := by
  rw [calculateRoute_run]
  simp only [hstart, hdest, Bool.not_true, Bool.or_self, Bool.false_eq_true, if_false, hgeo,
    hbody]
  cases net (directionsRequest host body) with
  | error e => rfl
  | ok data =>
    simp only []
    cases routeGeometry data with
    | error e => rfl
    | ok geometry =>
      simp only []
      cases routeSummary data <;> rfl

/-- The geometry callback swaps the two entries of a pair. -/
theorem swapLngLat_pair (a b : JSVal) (i : Nat) :
    swapLngLat (.arr [a, b]) i = .ok (.arr [b, a]) := rfl

/-- Mapping the geometry callback over a list of pairs swaps every pair in place. -/
theorem mapFrom_swapLngLat (pairs : List (JSVal × JSVal)) (i : Nat) :
    JSVal.mapFrom swapLngLat i (pairs.map fun p => JSVal.arr [p.1, p.2]) =
      .ok (pairs.map fun p => JSVal.arr [p.2, p.1]) := by
  induction pairs generalizing i with
  | nil => rfl
  | cons p rest ih =>
    simp only [List.map_cons, JSVal.mapFrom, swapLngLat_pair, ih]

/-- The `map` of the route geometry on an array of pairs. -/
theorem map_swapLngLat (pairs : List (JSVal × JSVal)) :
    (JSVal.arr (pairs.map fun p => JSVal.arr [p.1, p.2])).map swapLngLat =
      .ok (.arr (pairs.map fun p => JSVal.arr [p.2, p.1])) := by
  simp only [JSVal.map, mapFrom_swapLngLat]

/-- A truthy `v?.name` is what `v.name` reads. -/
theorem JSVal.getProp_of_optProp_truthy (v : JSVal) (name : String)
    (h : (v.optProp name).truthy = true) : v.getProp name = .ok (v.optProp name) := by
  cases v with
  | obj fields => rfl
  | undefined => simp [JSVal.optProp, JSVal.truthy] at h
  | null => simp [JSVal.optProp, JSVal.truthy] at h
  | bool b => simp [JSVal.optProp, JSVal.truthy] at h
  | num q => simp [JSVal.optProp, JSVal.truthy] at h
  | str t => simp [JSVal.optProp, JSVal.truthy] at h
  | arr elems => simp [JSVal.optProp, JSVal.truthy] at h

/-- Every path through the start field's `onChange`. -/
theorem startOnChange_run (host : Host) (net : Net) (s : State) (val : JSVal) :
    runFrom s (startOnChange host net s val) =
      if (val.optProp "isLocation").truthy then
        (.ok (), { state := { s with startCoords := s.userPosition }, requests := [],
                   console := [] })
      else if (val.optProp "label").truthy then
        match net (geocodeRequest host (val.optProp "label")) >>= firstCandidate with
        | .error e =>
          (.error e, { state := s, requests := [geocodeRequest host (val.optProp "label")],
                       console := [] })
        | .ok coords =>
          (.ok (), { state := { s with startCoords := coords },
                     requests := [geocodeRequest host (val.optProp "label")],
                     console := [] })
      else (.ok (), { state := s, requests := [], console := [] }) := by
  unfold startOnChange runFrom
  split
  · rfl
  · split
    · rename_i hlabel
      simp only [Eff.bind_run, Eff.lift_run, JSVal.getProp_of_optProp_truthy val "label" hlabel,
        geocodeAddress_run, setStartCoords, Eff.modify_run, List.nil_append]
      cases net (geocodeRequest host (val.optProp "label")) >>= firstCandidate <;> rfl
    · rfl

/-- Every path through `fetchAutocomplete` when `setOptions` is a state setter. -/
theorem fetchAutocomplete_run (host : Host) (net : Net) (input : JSString)
    (set : JSVal → State → State) (w : World) :
    fetchAutocomplete host net input (fun v => Eff.modify (set v)) w =
      if input.length < 3 then (.ok (), { w with state := set (.arr []) w.state })
      else
        match net (autocompleteRequest host input) >>= suggestions host with
        | .ok results =>
          (.ok (), { state := set results w.state,
                     requests := w.requests ++ [autocompleteRequest host input],
                     console := w.console })
        | .error e =>
          (.ok (), { state := w.state,
                     requests := w.requests ++ [autocompleteRequest host input],
                     console := w.console ++ [.autocomplete e] }) := by
  unfold fetchAutocomplete
  split
  · rfl
  · simp only [Eff.tryCatch_run, Eff.bind_run, axiosGet_run, Eff.lift_run, Eff.modify_run,
      consoleError_run, autocompleteRequest]
    cases net (Request.get autocompleteUrl
      [("api_key", host.apiKey), ("text", .str input), ("size", .num 5),
        ("boundary_country", .str (jsStr "FR"))]) with
    | error e => rfl
    | ok data =>
      simp only [bind, Except.bind]
      cases suggestions host data <;> rfl

/-- Every path through the start field's `onInputChange`. -/
theorem startOnInputChange_run (host : Host) (net : Net) (s : State) (val : JSString) :
    runFrom s (startOnInputChange host net val) =
      if val.length < 3 then
        (.ok (), { state := { s with startInput := val, startOptions := .arr [] },
                   requests := [], console := [] })
      else
        match net (autocompleteRequest host val) >>= suggestions host with
        | .ok results =>
          (.ok (), { state := { s with startInput := val, startOptions := results },
                     requests := [autocompleteRequest host val], console := [] })
        | .error e =>
          (.ok (), { state := { s with startInput := val },
                     requests := [autocompleteRequest host val],
                     console := [.autocomplete e] }) := by
  unfold startOnInputChange runFrom
  simp only [Eff.bind_run, setStartInput, Eff.modify_run]
  by_cases h : val.length < 3
  · have h3 : ¬ val.length ≥ 3 := by omega
    simp only [h3, if_false, h, if_true, setStartOptions, Eff.modify_run]
  · have h3 : val.length ≥ 3 := by omega
    simp only [h3, if_true, h, if_false]
    have := fetchAutocomplete_run host net val (fun v s => { s with startOptions := v })
      { state := { s with startInput := val }, requests := [], console := [] }
    simp only [h, if_false, List.nil_append] at this
    exact this

/-- Every path through the destination field's `onInputChange`. -/
theorem endOnInputChange_run (host : Host) (net : Net) (s : State) (val : JSString) :
    runFrom s (endOnInputChange host net val) =
      if val.length < 3 then
        (.ok (), { state := { s with endInput := val, endOptions := .arr [] },
                   requests := [], console := [] })
      else
        match net (autocompleteRequest host val) >>= suggestions host with
        | .ok results =>
          (.ok (), { state := { s with endInput := val, endOptions := results },
                     requests := [autocompleteRequest host val], console := [] })
        | .error e =>
          (.ok (), { state := { s with endInput := val },
                     requests := [autocompleteRequest host val],
                     console := [.autocomplete e] }) := by
  unfold endOnInputChange runFrom
  simp only [Eff.bind_run, setEndInput, Eff.modify_run]
  have := fetchAutocomplete_run host net val (fun v s => { s with endOptions := v })
    { state := { s with endInput := val }, requests := [], console := [] }
  simp only [List.nil_append] at this
  exact this

/-- Every path through `handleAddIncident`. -/
theorem handleAddIncident_run (s : State) :
    runFrom s (handleAddIncident s) =
      if !s.userPosition.truthy || s.selectedIncident.isEmpty then
        (.ok (), { state := s, requests := [], console := [] })
      else
        (.ok (), { state := { s with
                     incidents := s.incidents ++
                       [{ type := s.selectedIncident, position := s.userPosition }]
                     incidentDialogOpen := false
                     selectedIncident := [] },
                   requests := [], console := [] }) := by
  unfold handleAddIncident runFrom
  split <;> rfl

/-- Every path through the destination field's `onChange`. -/
theorem endOnChange_run (s : State) (val : JSVal) :
    runFrom s (endOnChange val) =
      if (val.optProp "label").truthy then
        (.ok (), { state := { s with destination := val.optProp "label" }, requests := [],
                   console := [] })
      else (.ok (), { state := s, requests := [], console := [] }) := by
  unfold endOnChange runFrom
  split
  · rename_i hlabel
    simp only [Eff.bind_run, Eff.lift_run, JSVal.getProp_of_optProp_truthy val "label" hlabel,
      setDestination, Eff.modify_run]
  · rfl

/-- One event leaves the incident list as it is or appends one entry to it. -/
theorem step_incidents (host : Host) (s : State) (a : Action) :
    (step host s a).incidents = s.incidents ∨
      ∃ incident, (step host s a).incidents = s.incidents ++ [incident] := by
  cases a with
  | mount geolocation =>
    left
    cases geolocation with
    | none => rfl
    | some result => cases result <;> rfl
  | startInputChange val net =>
    left
    simp only [step, handlerOf, startOnInputChange_run]
    split
    · rfl
    · split <;> rfl
  | startChange val net =>
    left
    simp only [step, handlerOf, startOnChange_run]
    split
    · rfl
    · split
      · split <;> rfl
      · rfl
  | endInputChange val net =>
    left
    simp only [step, handlerOf, endOnInputChange_run]
    split
    · rfl
    · split <;> rfl
  | endChange val =>
    left
    simp only [step, handlerOf, endOnChange_run]
    split <;> rfl
  | avoidTollsChange checked => exact Or.inl rfl
  | calculate net =>
    left
    simp only [step, handlerOf, calculateRoute_run]
    split
    · rfl
    · split
      · rfl
      · split
        · rfl
        · split
          · rfl
          · split
            · rfl
            · split <;> rfl
  | openIncidentDialog => exact Or.inl rfl
  | closeIncidentDialog => exact Or.inl rfl
  | selectIncident value => exact Or.inl rfl
  | confirmIncident =>
    simp only [step, handlerOf, handleAddIncident_run]
    split
    · exact Or.inl rfl
    · exact Or.inr ⟨_, rfl⟩

/-- The incident list before a sequence of events starts the list after it. -/
theorem run_incidents (host : Host) (actions : List Action) (s : State) :
    s.incidents <+: (run host s actions).incidents := by
  induction actions generalizing s with
  | nil => exact ⟨[], List.append_nil _⟩
  | cons a rest ih =>
    obtain ⟨t, ht⟩ := ih (step host s a)
    rcases step_incidents host s a with h | ⟨incident, h⟩
    · exact ⟨t, by rw [← h]; exact ht⟩
    · refine ⟨incident :: t, ?_⟩
      rw [h] at ht
      simpa using ht

/-! ## Lemmas on decimal rendering and on suggestion keys -/

theorem decimalAux_digits (fuel n : Nat) (acc : JSString)
    (hacc : ∀ u ∈ acc, 48 ≤ u ∧ u ≤ 57) :
    ∀ u ∈ decimalAux fuel n acc, 48 ≤ u ∧ u ≤ 57 := by
  induction fuel generalizing n acc with
  | zero => simpa [decimalAux] using hacc
  | succ fuel ih =>
    have hcons : ∀ u ∈ (48 + n % 10) :: acc, 48 ≤ u ∧ u ≤ 57 := by
      intro u hu
      rcases List.mem_cons.mp hu with rfl | hu
      · have : n % 10 < 10 := Nat.mod_lt _ (by norm_num)
        omega
      · exact hacc u hu
    unfold decimalAux
    split
    · exact hcons
    · exact ih (n / 10) _ hcons

/-- Every code unit of a decimal rendering is a digit. -/
theorem decimal_digits (n : Nat) : ∀ u ∈ decimal n, 48 ≤ u ∧ u ≤ 57 :=
  decimalAux_digits (n + 1) n [] (by simp)

theorem decimalAux_value (fuel n : Nat) (acc : JSString) (hfuel : n < fuel) :
    (decimalAux fuel n acc).foldl (fun value u => 10 * value + (u - 48)) 0 =
      acc.foldl (fun value u => 10 * value + (u - 48)) n := by
  induction fuel generalizing n acc with
  | zero => omega
  | succ fuel ih =>
    unfold decimalAux
    split
    · rename_i hsmall
      have hn : n % 10 = n := by omega
      simp only [List.foldl_cons, Nat.mul_zero, Nat.zero_add, Nat.add_sub_cancel_left, hn]
    · rename_i hbig
      have hlt : n / 10 < fuel := by omega
      rw [ih (n / 10) _ hlt]
      have hn : 10 * (n / 10) + (48 + n % 10 - 48) = n := by omega
      simp only [List.foldl_cons, hn]

/-- A decimal rendering denotes the number it renders. -/
theorem digitsValue_decimal (n : Nat) : digitsValue (decimal n) = n := by
  unfold digitsValue decimal
  rw [decimalAux_value (n + 1) n [] (by omega)]
  rfl

/-- Different numbers have different decimal renderings. -/
theorem decimal_injective (m n : Nat) (h : decimal m = decimal n) : m = n := by
  have := congrArg digitsValue h
  rwa [digitsValue_decimal, digitsValue_decimal] at this

/-- Two strings that end in a hyphen followed by hyphen-free text and are equal have the
same text after the hyphen. -/
theorem suffix_after_hyphen (a b d1 d2 : JSString) (h1 : 45 ∉ d1) (h2 : 45 ∉ d2)
    (h : a ++ 45 :: d1 = b ++ 45 :: d2) : d1 = d2 := by
  rcases List.append_eq_append_iff.mp h with ⟨t, _, ht⟩ | ⟨t, _, ht⟩
  · cases t with
    | nil => simpa using ht
    | cons x t =>
      exfalso
      apply h1
      simp only [List.cons_append, List.cons.injEq] at ht
      rw [ht.2]
      simp
  · cases t with
    | nil => simpa using ht.symm
    | cons x t =>
      exfalso
      apply h2
      simp only [List.cons_append, List.cons.injEq] at ht
      rw [ht.2]
      simp

/-- Fallback keys built at different indices differ, whatever the labels. -/
theorem fallback_key_ne (l1 l2 : JSString) (i j : Nat) (hij : i ≠ j) :
    l1 ++ jsStr "-" ++ decimal i ≠ l2 ++ jsStr "-" ++ decimal j := by
  intro h
  have hdash : jsStr "-" = [45] := by decide
  rw [hdash, List.append_assoc, List.append_assoc] at h
  have hdigit : ∀ n, 45 ∉ decimal n := by
    intro n hmem
    have := decimal_digits n 45 hmem
    omega
  exact hij (decimal_injective i j (suffix_after_hyphen l1 l2 _ _ (hdigit i) (hdigit j) h))

/-- The suggestion built from a feature with a string label. -/
theorem suggestionOf_eq (host : Host) (f properties id : JSVal) (label : JSString) (i : Nat)
    (hprops : f.getProp "properties" = .ok properties)
    (hlabel : properties.getProp "label" = .ok (.str label))
    (hid : properties.getProp "id" = .ok id) :
    suggestionOf host f i = .ok (specSuggestion i label id) := by
  simp only [suggestionOf, bind, Except.bind, hprops, hlabel, hid, specSuggestion]
  cases id.truthy
  · simp only [Bool.false_eq_true, if_false, JSVal.toStr]
    rfl
  · rfl

/-- The suggestions built from features with string labels, from index `i` on. -/
theorem mapFrom_suggestionOf (host : Host) (features : List JSVal)
    (items : List (JSString × JSVal))
    (hitems : List.Forall₂ (fun f item => ∃ properties,
      f.getProp "properties" = .ok properties ∧
      properties.getProp "label" = .ok (.str item.1) ∧
      properties.getProp "id" = .ok item.2) features items) (i : Nat) :
    JSVal.mapFrom (suggestionOf host) i features =
      .ok ((items.enumFrom i).map fun e => specSuggestion e.1 e.2.1 e.2.2) := by
  induction hitems generalizing i with
  | nil => rfl
  | cons hhead _ ih =>
    obtain ⟨properties, hprops, hlabel, hid⟩ := hhead
    simp only [JSVal.mapFrom, suggestionOf_eq host _ properties _ _ i hprops hlabel hid, ih,
      List.enumFrom_cons, List.map_cons]

/-- Entry of the prescribed suggestion list at an index. -/
theorem specSuggestions_getElem? (items : List (JSString × JSVal)) (i : Nat)
    (label : JSString) (id : JSVal) (h : items[i]? = some (label, id)) :
    (specSuggestions items)[i]? = some (specSuggestion i label id) := by
  simp only [specSuggestions, List.getElem?_map, List.getElem?_enum, h, Option.map_some']

/-- Key of a prescribed suggestion. -/
theorem specSuggestion_key (i : Nat) (label : JSString) (id : JSVal) :
    (specSuggestion i label id).getProp "key" =
      .ok (if id.truthy then id else .str (label ++ jsStr "-" ++ decimal i)) := rfl

/-! ## Lemmas on double rounding -/

theorem roundHalfEven_ge (y : ℚ) (a : Int) (h : (a : ℚ) ≤ y) : a ≤ roundHalfEven y := by
  have hf : a ≤ ⌊y⌋ := Int.le_floor.mpr h
  unfold roundHalfEven
  split
  · exact hf
  · split
    · omega
    · split <;> omega

theorem roundHalfEven_lt (y : ℚ) (b : Int) (h : y < (b : ℚ) - 1 / 2) : roundHalfEven y < b := by
  have hyb : y < (b : ℚ) := by linarith
  have hf : ⌊y⌋ < b := Int.floor_lt.mpr hyb
  have hfl : (⌊y⌋ : ℚ) ≤ y := Int.floor_le y
  unfold roundHalfEven
  split
  · exact hf
  · rename_i h1
    have hb : ⌊y⌋ + 1 < b := by
      by_contra hcon
      have hfb : ⌊y⌋ = b - 1 := by omega
      apply h1
      rw [hfb]
      push_cast
      linarith
    split
    · exact hb
    · split <;> omega

theorem roundHalfEven_gt (y : ℚ) (a : Int) (h : (a : ℚ) + 1 / 2 < y) : a < roundHalfEven y := by
  have hya : (a : ℚ) ≤ y := by linarith
  have hf : a ≤ ⌊y⌋ := Int.le_floor.mpr hya
  unfold roundHalfEven
  split
  · rename_i h1
    by_contra hcon
    have hfa : ⌊y⌋ = a := by omega
    rw [hfa] at h1
    linarith
  · split
    · omega
    · rename_i h1 h2
      by_contra hcon
      have hfa : ⌊y⌋ = a := by
        split at hcon <;> omega
      rw [hfa] at h2
      apply h2
      linarith

theorem roundHalfEven_eq (y : ℚ) (n : Int) (h1 : (n : ℚ) - 1 / 2 < y)
    (h2 : y < (n : ℚ) + 1 / 2) : roundHalfEven y = n := by
  have hgt : n - 1 < roundHalfEven y := roundHalfEven_gt y (n - 1) (by push_cast; linarith)
  have hlt : roundHalfEven y < n + 1 := roundHalfEven_lt y (n + 1) (by push_cast; linarith)
  omega

theorem two_zpow_pos (q : Int) : (0 : ℚ) < 2 ^ q := zpow_pos (by norm_num) q

/-- A multiple of the unit in the last place below `x` stays below the rounded value. -/
theorem le_roundToDouble (x : ℚ) (a : Int) (h : (a : ℚ) * 2 ^ ulpExponent x ≤ x) :
    (a : ℚ) * 2 ^ ulpExponent x ≤ roundToDouble x := by
  have hu := two_zpow_pos (ulpExponent x)
  have : a ≤ roundHalfEven (x / 2 ^ ulpExponent x) :=
    roundHalfEven_ge _ a ((le_div_iff₀ hu).mpr h)
  unfold roundToDouble
  have hc : (a : ℚ) ≤ (roundHalfEven (x / 2 ^ ulpExponent x) : ℚ) := by exact_mod_cast this
  exact mul_le_mul_of_nonneg_right hc hu.le

/-- A multiple of the unit in the last place more than half a unit above `x` stays above the
rounded value. -/
theorem roundToDouble_lt (x : ℚ) (b : Int)
    (h : x < (b : ℚ) * 2 ^ ulpExponent x - 2 ^ ulpExponent x / 2) :
    roundToDouble x < (b : ℚ) * 2 ^ ulpExponent x := by
  have hu := two_zpow_pos (ulpExponent x)
  have : roundHalfEven (x / 2 ^ ulpExponent x) < b := by
    apply roundHalfEven_lt
    rw [div_lt_iff₀ hu]
    linarith
  unfold roundToDouble
  have hc : (roundHalfEven (x / 2 ^ ulpExponent x) : ℚ) < (b : ℚ) := by exact_mod_cast this
  exact mul_lt_mul_of_pos_right hc hu

theorem log_two_eq (x : ℚ) (e : Int) (h1 : (2 : ℚ) ^ e ≤ x) (h2 : x < 2 ^ (e + 1)) :
    Int.log 2 x = e := by
  have hx : 0 < x := lt_of_lt_of_le (two_zpow_pos e) h1
  have hle : e ≤ Int.log 2 x := (Int.zpow_le_iff_le_log (by norm_num) hx).mp (by simpa using h1)
  have hlt : Int.log 2 x < e + 1 := (Int.lt_zpow_iff_log_lt (by norm_num) hx).mp (by simpa using h2)
  omega


theorem ulpExponent_le (x : ℚ) (k : Int) (hx : |x| < 2 ^ k) (hk : -1021 ≤ k) :
    ulpExponent x ≤ k - 53 := by
  unfold ulpExponent
  split
  · omega
  · rename_i hne
    have hpos : 0 < |x| := abs_pos.mpr hne
    have hlog : Int.log 2 |x| < k :=
      (Int.lt_zpow_iff_log_lt (by norm_num) hpos).mp (by simpa using hx)
    have : max (Int.log 2 |x|) (-1022) ≤ k - 1 := max_le (by omega) (by omega)
    omega

theorem ulpExponent_eq (x : ℚ) (e : Int) (h1 : (2 : ℚ) ^ e ≤ |x|) (h2 : |x| < 2 ^ (e + 1))
    (he : -1022 ≤ e) : ulpExponent x = e - 52 := by
  have hpos : 0 < |x| := lt_of_lt_of_le (two_zpow_pos e) h1
  have hne : x ≠ 0 := abs_pos.mp hpos
  unfold ulpExponent
  rw [if_neg hne, log_two_eq |x| e h1 h2, max_eq_left he]

theorem roundToDouble_zero : roundToDouble 0 = 0 := by
  unfold roundToDouble roundHalfEven
  simp

/-- Value of the rounding, from the binade of `x` and the integer nearest to `x` in units
in the last place. -/
theorem roundToDouble_eq (x : ℚ) (e n : Int) (h1 : (2 : ℚ) ^ e ≤ |x|)
    (h2 : |x| < 2 ^ (e + 1)) (he : -1022 ≤ e)
    (hn1 : (n : ℚ) - 1 / 2 < x / 2 ^ (e - 52)) (hn2 : x / 2 ^ (e - 52) < (n : ℚ) + 1 / 2) :
    roundToDouble x = (n : ℚ) * 2 ^ (e - 52) := by
  unfold roundToDouble
  rw [ulpExponent_eq x e h1 h2 he, roundHalfEven_eq _ n hn1 hn2]

/-- A power of two times the unit `2 ^ q` with `q ≤ 0` is one. -/
theorem pow_toNat_mul_zpow (q : Int) (hq : q ≤ 0) :
    ((2 : ℚ) ^ (-q).toNat) * 2 ^ q = 1 := by
  have h : (((-q).toNat : Int)) = -q := Int.toNat_of_nonneg (by omega)
  rw [← zpow_natCast, h, ← zpow_add₀ (by norm_num : (2 : ℚ) ≠ 0)]
  simp

/-- The double quotient `y` of a number below `2 ^ 48` lies between two integers as soon as
the exact quotient does with a margin of a sixtieth above. -/
theorem roundToDouble_between (y : ℚ) (h : Int) (hy0 : 0 ≤ y) (hylt : y < 2 ^ 48)
    (hlow : (h : ℚ) ≤ y) (hupp : y ≤ (h : ℚ) + 1 - 1 / 60) :
    (h : ℚ) ≤ roundToDouble y ∧ roundToDouble y < (h : ℚ) + 1 := by
  have habs : |y| < 2 ^ (48 : Int) := by
    rw [abs_of_nonneg hy0]
    exact_mod_cast hylt
  have hq : ulpExponent y ≤ -5 := by
    have := ulpExponent_le y 48 habs (by norm_num)
    omega
  have hu := two_zpow_pos (ulpExponent y)
  have hule : (2 : ℚ) ^ ulpExponent y ≤ 1 / 32 := by
    have := zpow_le_zpow_right₀ (by norm_num : (1 : ℚ) ≤ 2) hq
    norm_num at this ⊢
    exact this
  have hone := pow_toNat_mul_zpow (ulpExponent y) (by omega)
  have hmulL : ((h * 2 ^ (-ulpExponent y).toNat : Int) : ℚ) * 2 ^ ulpExponent y = (h : ℚ) := by
    rw [Int.cast_mul, Int.cast_pow, Int.cast_ofNat, mul_assoc, hone, mul_one]
  have hmulU : (((h + 1) * 2 ^ (-ulpExponent y).toNat : Int) : ℚ) * 2 ^ ulpExponent y
      = (h : ℚ) + 1 := by
    rw [Int.cast_mul, Int.cast_pow, Int.cast_ofNat, mul_assoc, hone, mul_one, Int.cast_add,
      Int.cast_one]
  have h1 := le_roundToDouble y _ (by rw [hmulL]; exact hlow)
  have h2 := roundToDouble_lt y ((h + 1) * 2 ^ (-ulpExponent y).toNat)
    (by rw [hmulU]; linarith)
  rw [hmulL] at h1
  rw [hmulU] at h2
  exact ⟨h1, h2⟩

/-- The double quotient of a natural number by 60 has the exact quotient as its floor. -/
theorem mathFloor_div_sixty (m : Nat) (hm : m < 60 * 2 ^ 48) :
    mathFloor (roundToDouble ((m : ℚ) / 60)) = ((m / 60 : Nat) : Int) := by
  have hdiv : (m : ℚ) = 60 * ((m / 60 : Nat) : ℚ) + ((m % 60 : Nat) : ℚ) := by
    exact_mod_cast (Nat.div_add_mod m 60).symm
  have hmod : ((m % 60 : Nat) : ℚ) ≤ 59 := by
    have : m % 60 < 60 := Nat.mod_lt _ (by norm_num)
    have : m % 60 ≤ 59 := by omega
    exact_mod_cast this
  have hmod0 : (0 : ℚ) ≤ ((m % 60 : Nat) : ℚ) := by positivity
  have hcast : (((m / 60 : Nat) : Int) : ℚ) = ((m / 60 : Nat) : ℚ) := Int.cast_natCast _
  have hmq : (m : ℚ) < 60 * 2 ^ 48 := by exact_mod_cast hm
  have hbetween := roundToDouble_between ((m : ℚ) / 60) ((m / 60 : Nat) : Int)
    (by positivity)
    (by rw [div_lt_iff₀ (by norm_num)]; linarith)
    (by rw [hcast, le_div_iff₀ (by norm_num)]; linarith)
    (by rw [hcast, div_le_iff₀ (by norm_num)]; linarith)
  unfold mathFloor
  rw [Int.floor_eq_iff]
  exact hbetween

/-- A power of two times the unit `2 ^ q` with `q ≤ -1` is a half. -/
theorem pow_toNat_mul_zpow_half (q : Int) (hq : q ≤ -1) :
    ((2 : ℚ) ^ (-q - 1).toNat) * 2 ^ q = 1 / 2 := by
  have h : (((-q - 1).toNat : Int)) = -q - 1 := Int.toNat_of_nonneg (by omega)
  rw [← zpow_natCast, h, ← zpow_add₀ (by norm_num : (2 : ℚ) ≠ 0)]
  have : -q - 1 + q = -1 := by omega
  rw [this]
  norm_num

/-- The gap between a double `s` in `[1, 2 ^ 53)` and a larger integer is at least 32 units
in the last place of `s / 60`. -/
theorem gap_above_double (s : ℚ) (hd : roundToDouble s = s) (h1 : 1 ≤ s) (hlt : s < 2 ^ 53)
    (c : Nat) (hc : s < (c : ℚ)) : 32 * (2 : ℚ) ^ ulpExponent (s / 60) ≤ (c : ℚ) - s := by
  have hs0 : 0 < s := by linarith
  have habs : |s| = s := abs_of_pos hs0
  have hb1 : (2 : ℚ) ^ Int.log 2 s ≤ s := by
    simpa using Int.zpow_log_le_self (b := 2) (by norm_num) hs0
  have hb2 : s < (2 : ℚ) ^ (Int.log 2 s + 1) := by
    simpa using Int.lt_zpow_succ_log_self (b := 2) (by norm_num) s
  have he0 : 0 ≤ Int.log 2 s :=
    (Int.zpow_le_iff_le_log (by norm_num) hs0).mp (by simpa using h1)
  have he53 : Int.log 2 s < 53 :=
    (Int.lt_zpow_iff_log_lt (by norm_num) hs0).mp (by
      have : s < (2 : ℚ) ^ (53 : Int) := by exact_mod_cast hlt
      simpa using this)
  have hqs : ulpExponent s = Int.log 2 s - 52 :=
    ulpExponent_eq s _ (by rw [habs]; exact hb1) (by rw [habs]; exact hb2) (by omega)
  -- the integer `c` and `s` are multiples of the unit of `s`
  have hone := pow_toNat_mul_zpow (ulpExponent s) (by omega)
  have hus := two_zpow_pos (ulpExponent s)
  have hcmul : (((c : Int) * 2 ^ (-ulpExponent s).toNat : Int) : ℚ) * 2 ^ ulpExponent s
      = (c : ℚ) := by
    rw [Int.cast_mul, Int.cast_pow, Int.cast_ofNat, mul_assoc, hone, mul_one, Int.cast_natCast]
  have hsmul : (roundHalfEven (s / 2 ^ ulpExponent s) : ℚ) * 2 ^ ulpExponent s = s := hd
  have hlt' : (roundHalfEven (s / 2 ^ ulpExponent s) : ℚ)
      < (((c : Int) * 2 ^ (-ulpExponent s).toNat : Int) : ℚ) := by
    by_contra hcon
    have := mul_le_mul_of_nonneg_right (not_lt.mp hcon) hus.le
    rw [hcmul, hsmul] at this
    linarith
  have hint : roundHalfEven (s / 2 ^ ulpExponent s) + 1
      ≤ (c : Int) * 2 ^ (-ulpExponent s).toNat := by
    have : roundHalfEven (s / 2 ^ ulpExponent s) < (c : Int) * 2 ^ (-ulpExponent s).toNat := by
      exact_mod_cast hlt'
    omega
  have hgap : (2 : ℚ) ^ ulpExponent s ≤ (c : ℚ) - s := by
    have hq : ((roundHalfEven (s / 2 ^ ulpExponent s) + 1 : Int) : ℚ)
        ≤ (((c : Int) * 2 ^ (-ulpExponent s).toNat : Int) : ℚ) := by exact_mod_cast hint
    have := mul_le_mul_of_nonneg_right hq hus.le
    rw [hcmul, Int.cast_add, Int.cast_one, add_mul, hsmul, one_mul] at this
    linarith
  -- the unit of the quotient is at most a 32nd of the unit of `s`
  have hx0 : 0 ≤ s / 60 := by positivity
  have hsplit : (2 : ℚ) ^ (Int.log 2 s + 1) = 32 * 2 ^ (Int.log 2 s - 4) := by
    have : Int.log 2 s + 1 = 5 + (Int.log 2 s - 4) := by omega
    rw [this, zpow_add₀ (by norm_num : (2 : ℚ) ≠ 0)]
    norm_num
  have hxlt : |s / 60| < (2 : ℚ) ^ (Int.log 2 s - 4) := by
    rw [abs_of_nonneg hx0, div_lt_iff₀ (by norm_num)]
    have hp := two_zpow_pos (Int.log 2 s - 4)
    rw [hsplit] at hb2
    linarith
  have hqx : ulpExponent (s / 60) ≤ ulpExponent s - 5 := by
    have := ulpExponent_le (s / 60) (Int.log 2 s - 4) hxlt (by omega)
    omega
  have hule : (2 : ℚ) ^ ulpExponent (s / 60) ≤ 2 ^ (ulpExponent s - 5) :=
    zpow_le_zpow_right₀ (by norm_num) hqx
  have hsplit2 : (2 : ℚ) ^ ulpExponent s = 32 * 2 ^ (ulpExponent s - 5) := by
    have : ulpExponent s = 5 + (ulpExponent s - 5) := by omega
    nth_rewrite 1 [this]
    rw [zpow_add₀ (by norm_num : (2 : ℚ) ≠ 0)]
    norm_num
  rw [hsplit2] at hgap
  linarith

/-- On a double below `2 ^ 53`, rounding the double quotient by 60 gives the whole number of
minutes nearest to the exact quotient, a half going up. -/
theorem mathRound_div_sixty (s : ℚ) (hd : roundToDouble s = s) (hs : 0 ≤ s)
    (hlt : s < 2 ^ 53) (m : Nat) (h1 : (m : ℚ) - 1 / 2 ≤ s / 60)
    (h2 : s / 60 < (m : ℚ) + 1 / 2) :
    mathRound (roundToDouble (s / 60)) = (m : Int) := by
  have hx0 : 0 ≤ s / 60 := by positivity
  have habs : |s / 60| < 2 ^ (48 : Int) := by
    rw [abs_of_nonneg hx0, div_lt_iff₀ (by norm_num)]
    norm_num at hlt ⊢
    linarith
  have hq : ulpExponent (s / 60) ≤ -5 := by
    have := ulpExponent_le (s / 60) 48 habs (by norm_num)
    omega
  have hu := two_zpow_pos (ulpExponent (s / 60))
  have hule : (2 : ℚ) ^ ulpExponent (s / 60) ≤ 1 / 32 := by
    have := zpow_le_zpow_right₀ (by norm_num : (1 : ℚ) ≤ 2) hq
    norm_num at this ⊢
    exact this
  have hhalf := pow_toNat_mul_zpow_half (ulpExponent (s / 60)) (by omega)
  have hmulL : (((2 * (m : Int) - 1) * 2 ^ (-ulpExponent (s / 60) - 1).toNat : Int) : ℚ)
      * 2 ^ ulpExponent (s / 60) = (m : ℚ) - 1 / 2 := by
    rw [Int.cast_mul, Int.cast_pow, Int.cast_ofNat, mul_assoc, hhalf]
    push_cast
    ring
  have hmulU : (((2 * (m : Int) + 1) * 2 ^ (-ulpExponent (s / 60) - 1).toNat : Int) : ℚ)
      * 2 ^ ulpExponent (s / 60) = (m : ℚ) + 1 / 2 := by
    rw [Int.cast_mul, Int.cast_pow, Int.cast_ofNat, mul_assoc, hhalf]
    push_cast
    ring
  have hm0 : (0 : ℚ) ≤ (m : ℚ) := by positivity
  have hmargin : s / 60 < (m : ℚ) + 1 / 2 - 2 ^ ulpExponent (s / 60) / 2 := by
    by_cases hs1 : s < 1
    · have : s / 60 < 1 / 60 := by
        rw [div_lt_iff₀ (by norm_num)]
        linarith
      linarith
    · have hc : s < ((60 * m + 30 : Nat) : ℚ) := by
        push_cast
        rw [div_lt_iff₀ (by norm_num)] at h2
        linarith
      have hgap := gap_above_double s hd (not_lt.mp hs1) hlt (60 * m + 30) hc
      push_cast at hgap
      rw [div_lt_iff₀ (by norm_num)]
      linarith
  have hlow := le_roundToDouble (s / 60) _ (by rw [hmulL]; exact h1)
  have hupp := roundToDouble_lt (s / 60) _ (by rw [hmulU]; exact hmargin)
  rw [hmulL] at hlow
  rw [hmulU] at hupp
  unfold mathRound
  rw [Int.floor_eq_iff]
  constructor
  · push_cast
    linarith
  · push_cast
    linarith

/-- A natural number below `2 ^ 53` is a double. -/
theorem roundToDouble_natCast (n : Nat) (h : n < 2 ^ 53) : roundToDouble (n : ℚ) = (n : ℚ) := by
  have hn0 : (0 : ℚ) ≤ (n : ℚ) := by positivity
  have habs : |(n : ℚ)| < 2 ^ (53 : Int) := by
    rw [abs_of_nonneg hn0]
    exact_mod_cast h
  have hq : ulpExponent (n : ℚ) ≤ 0 := by
    have := ulpExponent_le (n : ℚ) 53 habs (by norm_num)
    omega
  have hu := two_zpow_pos (ulpExponent (n : ℚ))
  have hone := pow_toNat_mul_zpow (ulpExponent (n : ℚ)) hq
  have hmul : ((((n : Int)) * 2 ^ (-ulpExponent (n : ℚ)).toNat : Int) : ℚ)
      * 2 ^ ulpExponent (n : ℚ) = (n : ℚ) := by
    rw [Int.cast_mul, Int.cast_pow, Int.cast_ofNat, mul_assoc, hone, mul_one, Int.cast_natCast]
  have hdiv : (n : ℚ) / 2 ^ ulpExponent (n : ℚ)
      = ((((n : Int)) * 2 ^ (-ulpExponent (n : ℚ)).toNat : Int) : ℚ) := by
    rw [div_eq_iff hu.ne', hmul]
  unfold roundToDouble
  rw [hdiv, roundHalfEven_eq _ ((n : Int) * 2 ^ (-ulpExponent (n : ℚ)).toNat)
    (by linarith) (by linarith), hmul]

/-- A natural number below `2 ^ 53` is a finite double. -/
theorem isDouble_natCast (n : Nat) (h : n < 2 ^ 53) : IsDouble (n : ℚ) := by
  refine ⟨roundToDouble_natCast n h, ?_⟩
  have hn0 : (0 : ℚ) ≤ (n : ℚ) := by positivity
  rw [abs_of_nonneg hn0]
  have h1 : (n : ℚ) < 2 ^ 53 := by exact_mod_cast h
  have h2 : (2 : ℚ) ^ 53 < 2 ^ 1024 := by norm_num
  linarith

/-! ## Lemmas on number rendering -/

theorem numberToString_intCast_natCast (host : Host) (n : Nat) (h : n < 2 ^ 53) :
    numberToString host (((n : Int) : ℚ)) = decimal n := by
  have hlt : ¬ ((n : Int) < 0) := by omega
  have hden : (((n : Int) : ℚ)).den = 1 := Rat.intCast_den _
  have hnum : (((n : Int) : ℚ)).num = (n : Int) := Rat.intCast_num _
  unfold numberToString decimalInt
  rw [if_pos ⟨hden, by rw [hnum]; simpa using h⟩, hnum, if_neg hlt]
  simp

/-- The text of `formatDuration`, once the rounded number of minutes is known. -/
theorem formatDuration_of_minutes (host : Host) (s : ℚ) (m : Nat)
    (hround : mathRound (roundToDouble (s / 60)) = (m : Int)) (hm : m < 60 * 2 ^ 48) :
    formatDuration host s =
      if 0 < m / 60 then decimal (m / 60) ++ jsStr "h " ++ decimal (m % 60) ++ jsStr "min"
      else decimal (m % 60) ++ jsStr "min" := by
  have hfloor : mathFloor (roundToDouble (((m : Int) : ℚ) / 60)) = ((m / 60 : Nat) : Int) := by
    rw [Int.cast_natCast]
    exact mathFloor_div_sixty m hm
  have hrem : Int.tmod (m : Int) 60 = ((m % 60 : Nat) : Int) :=
    (Int.ofNat_tmod m 60).symm
  have hr : numberToString host (((m % 60 : Nat) : Int) : ℚ) = decimal (m % 60) :=
    numberToString_intCast_natCast host (m % 60) (by
      have : m % 60 < 60 := Nat.mod_lt _ (by norm_num)
      have h53 : (60 : Nat) < 2 ^ 53 := by norm_num
      omega)
  have hh : numberToString host (((m / 60 : Nat) : Int) : ℚ) = decimal (m / 60) :=
    numberToString_intCast_natCast host (m / 60) (by
      have h1 : m / 60 < 2 ^ 48 := by
        rw [Nat.div_lt_iff_lt_mul (by norm_num)]
        omega
      have h2 : (2 : Nat) ^ 48 < 2 ^ 53 := by norm_num
      omega)
  unfold formatDuration
  simp only [hround, hfloor, hrem, hr, hh]
  by_cases hpos : 0 < m / 60
  · have : ((m / 60 : Nat) : Int) > 0 := by exact_mod_cast hpos
    rw [if_pos this, if_pos hpos]
  · have : ¬ ((m / 60 : Nat) : Int) > 0 := by
      intro h
      exact hpos (by exact_mod_cast h)
    rw [if_neg this, if_neg hpos]

/-- The text of `formatDuration` on a double below `2 ^ 53`, from the whole number of minutes
nearest to the exact quotient. -/
theorem formatDuration_of_nearest (host : Host) (s : ℚ) (hd : IsDouble s) (hs : 0 ≤ s)
    (hlt : s < 2 ^ 53) (m : Nat) (h1 : (m : ℚ) - 1 / 2 ≤ s / 60)
    (h2 : s / 60 < (m : ℚ) + 1 / 2) :
    formatDuration host s =
      if 0 < m / 60 then decimal (m / 60) ++ jsStr "h " ++ decimal (m % 60) ++ jsStr "min"
      else decimal (m % 60) ++ jsStr "min" := by
  have hm : m < 60 * 2 ^ 48 := by
    have hq : (m : ℚ) < 60 * 2 ^ 48 := by
      have hs60 : s / 60 < 2 ^ 53 / 60 := by
        rw [div_lt_iff₀ (by norm_num)]
        linarith
      have hb : (2 : ℚ) ^ 53 / 60 + 1 / 2 < 60 * 2 ^ 48 := by norm_num
      linarith
    exact_mod_cast hq
  exact formatDuration_of_minutes host s m (mathRound_div_sixty s hd.1 hs hlt m h1 h2) hm

/-! ## C1: duration formatting -/

/-- C1, as stated, fails: the duration `2^55 + 80` seconds is a double; the whole number of
minutes nearest to it is `600479950316067`, whose remainder modulo 60 is 27; yet the double
quotient by 60 is `600479950316067.5`, which `Math.round` takes up, and `formatDuration`
returns `10007999171934h 28min`. -/
theorem formatDuration_large_duration_rounds_up :
    IsDouble 36028797018964048 ∧ (0 : ℚ) ≤ 36028797018964048 ∧
    ((600479950316067 : ℚ) - 1 / 2 ≤ 36028797018964048 / 60 ∧
      (36028797018964048 : ℚ) / 60 < 600479950316067 + 1 / 2) ∧
    600479950316067 / 60 = 10007999171934 ∧ 600479950316067 % 60 = 27 ∧
    formatDuration sampleHost 36028797018964048 = jsStr "10007999171934h 28min" ∧
    jsStr "10007999171934h 28min" ≠ jsStr "10007999171934h 27min" := by
  have hs : roundToDouble 36028797018964048 = 36028797018964048 := by
    rw [roundToDouble_eq 36028797018964048 55 4503599627370506
      (by rw [abs_of_pos (by norm_num)]; norm_num)
      (by rw [abs_of_pos (by norm_num)]; norm_num) (by norm_num)
      (by norm_num) (by norm_num)]
    norm_num
  have hq : roundToDouble (36028797018964048 / 60) = 1200959900632135 / 2 := by
    rw [roundToDouble_eq (36028797018964048 / 60) 49 4803839602528540
      (by rw [abs_of_pos (by norm_num)]; norm_num)
      (by rw [abs_of_pos (by norm_num)]; norm_num) (by norm_num)
      (by norm_num) (by norm_num)]
    norm_num
  have hround : mathRound (roundToDouble (36028797018964048 / 60))
      = ((600479950316068 : Nat) : Int) := by
    rw [hq]
    unfold mathRound
    rw [Int.floor_eq_iff]
    constructor <;> norm_num
  refine ⟨⟨hs, by rw [abs_of_pos (by norm_num)]; norm_num⟩, by norm_num,
    ⟨by norm_num, by norm_num⟩, by norm_num, by norm_num, ?_, by decide⟩
  rw [formatDuration_of_minutes sampleHost _ 600479950316068 hround (by norm_num)]
  decide

/-- C1, amended: for every non-negative duration `s` that is a double below `2^53` seconds,
`formatDuration(s)` takes the whole number of minutes `m` nearest to `s / 60` (a half
rounds up, nothing is truncated), and returns the decimal `h = m / 60` followed by `h `,
the decimal `r = m % 60` and `min` when `h > 0`, and the decimal `r` followed by `min`
otherwise. In particular the four values of the specification hold. -/
theorem formatDuration_nearest_minute (host : Host) (s : ℚ) (hd : IsDouble s) (hs : 0 ≤ s)
    (hlt : s < 2 ^ 53) :
    (∃ m : Nat, ((m : ℚ) - 1 / 2 ≤ s / 60 ∧ s / 60 < (m : ℚ) + 1 / 2) ∧
      formatDuration host s =
        (if 0 < m / 60 then
          decimal (m / 60) ++ jsStr "h " ++ decimal (m % 60) ++ jsStr "min"
        else decimal (m % 60) ++ jsStr "min")) ∧
    formatDuration host 0 = jsStr "0min" ∧
    formatDuration host 59 = jsStr "1min" ∧
    formatDuration host 3600 = jsStr "1h 0min" ∧
    formatDuration host 5400 = jsStr "1h 30min" := by
  refine ⟨?_, ?_, ?_, ?_, ?_⟩
  · have hnonneg : 0 ≤ ⌊s / 60 + 1 / 2⌋ := Int.floor_nonneg.mpr (by positivity)
    obtain ⟨m, hm⟩ := Int.eq_ofNat_of_zero_le hnonneg
    have hle : ((⌊s / 60 + 1 / 2⌋ : Int) : ℚ) ≤ s / 60 + 1 / 2 := Int.floor_le _
    have hlt2 : s / 60 + 1 / 2 < ((⌊s / 60 + 1 / 2⌋ : Int) : ℚ) + 1 :=
      Int.lt_floor_add_one _
    rw [hm] at hle hlt2
    have h1 : (m : ℚ) - 1 / 2 ≤ s / 60 := by
      have : (((m : Int)) : ℚ) = (m : ℚ) := Int.cast_natCast m
      linarith
    have h2 : s / 60 < (m : ℚ) + 1 / 2 := by
      have : (((m : Int)) : ℚ) = (m : ℚ) := Int.cast_natCast m
      linarith
    exact ⟨m, ⟨h1, h2⟩, formatDuration_of_nearest host s hd hs hlt m h1 h2⟩
  · have h := formatDuration_of_nearest host ((0 : Nat) : ℚ) (isDouble_natCast 0 (by norm_num))
      (by norm_num) (by norm_num) 0 (by norm_num) (by norm_num)
    rw [Nat.cast_zero] at h
    rw [h]
    decide
  · have h := formatDuration_of_nearest host ((59 : Nat) : ℚ)
      (isDouble_natCast 59 (by norm_num)) (by norm_num) (by norm_num) 1 (by norm_num)
      (by norm_num)
    rw [Nat.cast_ofNat] at h
    rw [h]
    decide
  · have h := formatDuration_of_nearest host ((3600 : Nat) : ℚ)
      (isDouble_natCast 3600 (by norm_num)) (by norm_num) (by norm_num) 60 (by norm_num)
      (by norm_num)
    rw [Nat.cast_ofNat] at h
    rw [h]
    decide
  · have h := formatDuration_of_nearest host ((5400 : Nat) : ℚ)
      (isDouble_natCast 5400 (by norm_num)) (by norm_num) (by norm_num) 90 (by norm_num)
      (by norm_num)
    rw [Nat.cast_ofNat] at h
    rw [h]
    decide

/-- C1, amended, at the duration 16234.5 s: 271 minutes, that is `4h 31min`. -/
theorem formatDuration_nearest_minute_witness :
    IsDouble (32469 / 2) ∧ (0 : ℚ) ≤ 32469 / 2 ∧ (32469 / 2 : ℚ) < 2 ^ 53 ∧
    ((∃ m : Nat, ((m : ℚ) - 1 / 2 ≤ (32469 / 2 : ℚ) / 60 ∧
        (32469 / 2 : ℚ) / 60 < (m : ℚ) + 1 / 2) ∧
      formatDuration sampleHost (32469 / 2) =
        (if 0 < m / 60 then
          decimal (m / 60) ++ jsStr "h " ++ decimal (m % 60) ++ jsStr "min"
        else decimal (m % 60) ++ jsStr "min")) ∧
    formatDuration sampleHost 0 = jsStr "0min" ∧
    formatDuration sampleHost 59 = jsStr "1min" ∧
    formatDuration sampleHost 3600 = jsStr "1h 0min" ∧
    formatDuration sampleHost 5400 = jsStr "1h 30min") :=
  have hd : IsDouble (32469 / 2) := by
    refine ⟨?_, by rw [abs_of_pos (by norm_num)]; norm_num⟩
    rw [roundToDouble_eq (32469 / 2) 13 8925010760564736
      (by rw [abs_of_pos (by norm_num)]; norm_num)
      (by rw [abs_of_pos (by norm_num)]; norm_num) (by norm_num)
      (by norm_num) (by norm_num)]
    norm_num
  ⟨hd, by norm_num, by norm_num,
    formatDuration_nearest_minute sampleHost (32469 / 2) hd (by norm_num) (by norm_num)⟩

/-! ## C3: geocoding reads the first candidate -/

/-- C3: when the geocoding response has an empty candidate list, `geocodeAddress` throws
and returns no coordinate pair; when the first candidate has the coordinates `[lon, lat]`,
`geocodeAddress` returns `[lat, lon]`. -/
theorem geocodeAddress_first_candidate (host : Host) (net : Net) (address : JSVal)
    (w : World) (data : JSVal) (hnet : net (geocodeRequest host address) = .ok data) :
    (data.getProp "features" = .ok (.arr []) →
      (geocodeAddress host net address w).1 = .error .typeError) ∧
    (∀ first rest geometry lon lat,
      data.getProp "features" = .ok (.arr (first :: rest)) →
      first.getProp "geometry" = .ok geometry →
      geometry.getProp "coordinates" = .ok (.arr [lon, lat]) →
      (geocodeAddress host net address w).1 = .ok (.arr [lat, lon])) := by
  constructor
  · intro hfeatures
    rw [geocodeAddress_run, hnet]
    simp only [bind, Except.bind, firstCandidate, hfeatures]
    rfl
  · intro first rest geometry lon lat hfeatures hgeometry hcoords
    rw [geocodeAddress_run, hnet]
    simp only [bind, Except.bind, firstCandidate, hfeatures, JSVal.getIndex_arr,
      List.getD_cons_zero, hgeometry, hcoords]
    rfl

/-- C3 on an answer without candidates and on the answer for Lyon. -/
theorem geocodeAddress_first_candidate_witness :
    (geocodeAddress sampleHost (sampleNet (.ok emptyGeocode) (.ok lyonDirections))
        (.str (jsStr "Atlantis")) { state := parisState, requests := [], console := [] }).1
      = .error .typeError ∧
    (geocodeAddress sampleHost (sampleNet (.ok lyonGeocode) (.ok lyonDirections))
        (.str (jsStr "Lyon")) { state := parisState, requests := [], console := [] }).1
      = .ok (.arr [.num 45.75, .num 4.85]) :=
  ⟨(geocodeAddress_first_candidate sampleHost
      (sampleNet (.ok emptyGeocode) (.ok lyonDirections)) (.str (jsStr "Atlantis"))
      { state := parisState, requests := [], console := [] } emptyGeocode rfl).1 rfl,
   (geocodeAddress_first_candidate sampleHost
      (sampleNet (.ok lyonGeocode) (.ok lyonDirections)) (.str (jsStr "Lyon"))
      { state := parisState, requests := [], console := [] } lyonGeocode rfl).2
      _ _ _ _ _ rfl rfl rfl⟩

/-! ## C5: body of the directions request -/

/-- C5: when the start coordinate is `[startLat, startLon]` and the destination is
geocoded to `[destLat, destLon]`, `calculateRoute` posts a body whose `coordinates` are
`[[startLon, startLat], [destLon, destLat]]`; with `avoidTolls` the body is exactly
`{coordinates, options: {avoid_features: ["tollways"]}}`, without it the body is exactly
`{coordinates}`, so the body has an `options` field if and only if `avoidTolls` is set. -/
theorem calculateRoute_request_body (host : Host) (net : Net) (s : State)
    (startLat startLon destLat destLon : JSVal)
    (hstart : s.startCoords = .arr [startLat, startLon])
    (hdest : s.destination.truthy = true)
    (hgeo : net (geocodeRequest host s.destination) >>= firstCandidate
      = .ok (.arr [destLat, destLon])) :
    ∃ body : JSVal,
      (runFrom s (calculateRoute host net s)).2.requests =
        [geocodeRequest host s.destination, directionsRequest host body] ∧
      body.getProp "coordinates" =
        .ok (.arr [.arr [startLon, startLat], .arr [destLon, destLat]]) ∧
      (s.avoidTolls = true → body =
        .obj [(jsStr "coordinates", .arr [.arr [startLon, startLat], .arr [destLon, destLat]]),
          (jsStr "options",
            .obj [(jsStr "avoid_features", .arr [.str (jsStr "tollways")])])]) ∧
      (s.avoidTolls = false → body =
        .obj [(jsStr "coordinates",
          .arr [.arr [startLon, startLat], .arr [destLon, destLat]])]) ∧
      body.hasOwn "options" = s.avoidTolls := by
  have hbody := routeBody_eq s.startCoords (.arr [destLat, destLon]) s.avoidTolls
    startLon startLat destLon destLat (by rw [hstart]; rfl) (by rw [hstart]; rfl) rfl rfl
  have htruthy : s.startCoords.truthy = true := by rw [hstart]; rfl
  refine ⟨_, calculateRoute_requests host net s _ _ htruthy hdest hgeo hbody, ?_, ?_, ?_, ?_⟩
  · cases s.avoidTolls <;> rfl
  · intro h
    rw [h]
    rfl
  · intro h
    rw [h]
    rfl
  · cases s.avoidTolls <;> rfl

/-- C5 for the route from Paris to Lyon, without toll avoidance. -/
theorem calculateRoute_request_body_witness :
    ∃ body : JSVal,
      (runFrom parisState (calculateRoute sampleHost
        (sampleNet (.ok lyonGeocode) (.ok lyonDirections)) parisState)).2.requests =
        [geocodeRequest sampleHost parisState.destination,
          directionsRequest sampleHost body] ∧
      body.getProp "coordinates" =
        .ok (.arr [.arr [.num 2.3522, .num 48.8566], .arr [.num 4.85, .num 45.75]]) ∧
      (parisState.avoidTolls = true → body =
        .obj [(jsStr "coordinates",
            .arr [.arr [.num 2.3522, .num 48.8566], .arr [.num 4.85, .num 45.75]]),
          (jsStr "options",
            .obj [(jsStr "avoid_features", .arr [.str (jsStr "tollways")])])]) ∧
      (parisState.avoidTolls = false → body =
        .obj [(jsStr "coordinates",
          .arr [.arr [.num 2.3522, .num 48.8566], .arr [.num 4.85, .num 45.75]])]) ∧
      body.hasOwn "options" = parisState.avoidTolls :=
  calculateRoute_request_body sampleHost (sampleNet (.ok lyonGeocode) (.ok lyonDirections))
    parisState (.num 48.8566) (.num 2.3522) (.num 45.75) (.num 4.85) rfl rfl rfl

/-! ## C8: suggestions and their keys -/

/-- C8, as stated, fails: a feature whose `id` is present and is the empty string gets the
key `Paris-0`, not its `id`. -/
theorem fetchAutocomplete_empty_id_key :
    emptyIdAutocomplete.getProp "features"
      = .ok (.arr [.obj [(jsStr "properties",
          .obj [(jsStr "label", .str (jsStr "Paris")), (jsStr "id", .str [])])]]) ∧
    (runFrom parisState (endOnInputChange sampleHost
      (sampleNet (.ok emptyIdAutocomplete) (.ok lyonDirections)) (jsStr "Par"))).2.state.endOptions
      = .arr [.obj [(jsStr "label", .str (jsStr "Paris")),
          (jsStr "key", .str (jsStr "Paris-0"))]] ∧
    JSVal.str (jsStr "Paris-0") ≠ JSVal.str [] := by
  refine ⟨rfl, rfl, ?_⟩
  intro h
  cases h

/-- C8, amended: for an input of length at least 3 and an autocomplete response whose
features each carry `properties` with a string `label`, both input-change handlers store
one suggestion per feature, in the order of the features: the feature at index `i` becomes
`{label, key}` where `key` is `properties.id` when that value is truthy, and otherwise
(absent, `null`, empty string, zero, `false`) the label followed by `-` and the decimal
index `i`. Two features at different indices that both get the fallback key get different
keys, whatever their labels. -/
theorem fetchAutocomplete_suggestions (host : Host) (net : Net) (s : State)
    (input : JSString) (data : JSVal) (features : List JSVal)
    (items : List (JSString × JSVal)) (hlen : 3 ≤ input.length)
    (hnet : net (autocompleteRequest host input) = .ok data)
    (hfeatures : data.getProp "features" = .ok (.arr features))
    (hitems : List.Forall₂ (fun f item => ∃ properties,
      f.getProp "properties" = .ok properties ∧
      properties.getProp "label" = .ok (.str item.1) ∧
      properties.getProp "id" = .ok item.2) features items) :
    (runFrom s (endOnInputChange host net input)).2.state.endOptions
      = .arr (specSuggestions items) ∧
    (runFrom s (startOnInputChange host net input)).2.state.startOptions
      = .arr (specSuggestions items) ∧
    (specSuggestions items).length = features.length ∧
    (∀ i j labelI labelJ idI idJ, i ≠ j →
      items[i]? = some (labelI, idI) → items[j]? = some (labelJ, idJ) →
      idI.truthy = false → idJ.truthy = false →
      (specSuggestions items)[i]? = some (specSuggestion i labelI idI) ∧
      (specSuggestions items)[j]? = some (specSuggestion j labelJ idJ) ∧
      (specSuggestion i labelI idI).getProp "key"
        = .ok (.str (labelI ++ jsStr "-" ++ decimal i)) ∧
      (specSuggestion j labelJ idJ).getProp "key"
        = .ok (.str (labelJ ++ jsStr "-" ++ decimal j)) ∧
      (specSuggestion i labelI idI).getProp "key"
        ≠ (specSuggestion j labelJ idJ).getProp "key") := by
  have hlt : ¬ input.length < 3 := by omega
  have hsugg : net (autocompleteRequest host input) >>= suggestions host =
      .ok (.arr (specSuggestions items)) := by
    rw [hnet]
    simp only [bind, Except.bind, suggestions, hfeatures, JSVal.map,
      mapFrom_suggestionOf host features items hitems 0]
    rfl
  refine ⟨?_, ?_, ?_, ?_⟩
  · rw [endOnInputChange_run, if_neg hlt]
    simp only [hsugg]
  · rw [startOnInputChange_run, if_neg hlt]
    simp only [hsugg]
  · rw [specSuggestions, List.length_map, List.enum_length]
    exact hitems.length_eq.symm
  · intro i j labelI labelJ idI idJ hij hi hj hidI hidJ
    have hkeyI : (specSuggestion i labelI idI).getProp "key"
        = .ok (.str (labelI ++ jsStr "-" ++ decimal i)) := by
      rw [specSuggestion_key, hidI]
      rfl
    have hkeyJ : (specSuggestion j labelJ idJ).getProp "key"
        = .ok (.str (labelJ ++ jsStr "-" ++ decimal j)) := by
      rw [specSuggestion_key, hidJ]
      rfl
    refine ⟨specSuggestions_getElem? items i labelI idI hi,
      specSuggestions_getElem? items j labelJ idJ hj, hkeyI, hkeyJ, ?_⟩
    rw [hkeyI, hkeyJ]
    intro h
    exact fallback_key_ne labelI labelJ i j hij (JSVal.str.inj (Except.ok.inj h))

/-- C8, amended, for the input `Par`: two features labelled `Paris`, the first without
`id`, give the keys `Paris-0` and the second feature's `id`; two features labelled
`Paris` without `id` give different keys. -/
theorem fetchAutocomplete_suggestions_witness :
    (runFrom parisState (endOnInputChange sampleHost
      (sampleNet (.ok parisAutocomplete) (.ok lyonDirections)) (jsStr "Par"))).2.state.endOptions
      = .arr [.obj [(jsStr "label", .str (jsStr "Paris")),
            (jsStr "key", .str (jsStr "Paris-0"))],
          .obj [(jsStr "label", .str (jsStr "Paris")),
            (jsStr "key", .str (jsStr "node/17807753"))]] ∧
    (specSuggestion 0 (jsStr "Paris") .undefined).getProp "key"
      ≠ (specSuggestion 1 (jsStr "Paris") .undefined).getProp "key" :=
  ⟨(fetchAutocomplete_suggestions sampleHost
      (sampleNet (.ok parisAutocomplete) (.ok lyonDirections)) parisState (jsStr "Par")
      parisAutocomplete _
      [(jsStr "Paris", .undefined), (jsStr "Paris", .str (jsStr "node/17807753"))]
      (by decide) rfl rfl
      (List.Forall₂.cons ⟨_, rfl, rfl, rfl⟩
        (List.Forall₂.cons ⟨_, rfl, rfl, rfl⟩ List.Forall₂.nil))).1,
   ((fetchAutocomplete_suggestions sampleHost
      (sampleNet (.ok twinAutocomplete) (.ok lyonDirections)) parisState (jsStr "Par")
      twinAutocomplete _
      [(jsStr "Paris", .undefined), (jsStr "Paris", .undefined)]
      (by decide) rfl rfl
      (List.Forall₂.cons ⟨_, rfl, rfl, rfl⟩
        (List.Forall₂.cons ⟨_, rfl, rfl, rfl⟩ List.Forall₂.nil))).2.2.2
      0 1 _ _ _ _ (by decide) rfl rfl rfl rfl).2.2.2.2⟩

/-! ## C9: coordinate reordering -/

/-- C9: swapping a pair twice gives the pair back; the reordering that `calculateRoute`
applies to the route geometry keeps length and order, swaps every pair, and applied twice
returns the original list; and the destination that `calculateRoute` posts is the
`[lon, lat]` pair of the first geocoding candidate. -/
theorem coordinate_reordering_involutive (host : Host) (net : Net) (s : State)
    (a b : JSVal) (pairs : List (JSVal × JSVal))
    (data first geometry lon lat : JSVal) (rest : List JSVal)
    (hstart : s.startCoords.truthy = true) (hdest : s.destination.truthy = true)
    (hnet : net (geocodeRequest host s.destination) = .ok data)
    (hfeatures : data.getProp "features" = .ok (.arr (first :: rest)))
    (hgeometry : first.getProp "geometry" = .ok geometry)
    (hcoords : geometry.getProp "coordinates" = .ok (.arr [lon, lat])) :
    (swapLngLat (.arr [a, b]) 0 >>= fun swapped => swapLngLat swapped 0)
      = .ok (.arr [a, b]) ∧
    ((JSVal.arr (pairs.map fun p => JSVal.arr [p.1, p.2])).map swapLngLat
      = .ok (.arr (pairs.map fun p => JSVal.arr [p.2, p.1])) ∧
     (pairs.map fun p => JSVal.arr [p.2, p.1]).length = pairs.length ∧
     ((JSVal.arr (pairs.map fun p => JSVal.arr [p.1, p.2])).map swapLngLat
        >>= fun once => once.map swapLngLat)
      = .ok (.arr (pairs.map fun p => JSVal.arr [p.1, p.2]))) ∧
    (∃ body : JSVal,
      (runFrom s (calculateRoute host net s)).2.requests =
        [geocodeRequest host s.destination, directionsRequest host body] ∧
      (body.getProp "coordinates" >>= fun coordinates => coordinates.getIndex 1)
        = .ok (.arr [lon, lat])) := by
  refine ⟨rfl, ⟨map_swapLngLat pairs, List.length_map _ _, ?_⟩, ?_⟩
  · have h := map_swapLngLat (pairs.map fun p => (p.2, p.1))
    simp only [List.map_map] at h
    rw [map_swapLngLat]
    exact h
  · have hgeo : net (geocodeRequest host s.destination) >>= firstCandidate
        = .ok (.arr [lat, lon]) := by
      rw [hnet]
      simp only [bind, Except.bind, firstCandidate, hfeatures, JSVal.getIndex_arr,
        List.getD_cons_zero, hgeometry, hcoords]
      rfl
    obtain ⟨s1, hs1⟩ := JSVal.getIndex_of_truthy s.startCoords 1 hstart
    obtain ⟨s0, hs0⟩ := JSVal.getIndex_of_truthy s.startCoords 0 hstart
    have hbody := routeBody_eq s.startCoords (.arr [lat, lon]) s.avoidTolls s1 s0 lon lat
      hs1 hs0 rfl rfl
    refine ⟨_, calculateRoute_requests host net s _ _ hstart hdest hgeo hbody, ?_⟩
    cases s.avoidTolls <;> rfl

/-- C9 for the pair `(4.85, 45.75)`, a two-point geometry and the route from Paris to
Lyon. -/
theorem coordinate_reordering_involutive_witness :
    (swapLngLat (.arr [.num 4.85, .num 45.75]) 0 >>= fun swapped => swapLngLat swapped 0)
      = .ok (.arr [.num 4.85, .num 45.75]) ∧
    ((JSVal.arr ([(JSVal.num 2.3522, JSVal.num 48.8566), (.num 4.85, .num 45.75)].map
        fun p => JSVal.arr [p.1, p.2])).map swapLngLat
      = .ok (.arr ([(JSVal.num 2.3522, JSVal.num 48.8566), (.num 4.85, .num 45.75)].map
        fun p => JSVal.arr [p.2, p.1])) ∧
     ([(JSVal.num 2.3522, JSVal.num 48.8566), (.num 4.85, .num 45.75)].map
        fun p => JSVal.arr [p.2, p.1]).length
      = [(JSVal.num 2.3522, JSVal.num 48.8566), (JSVal.num 4.85, JSVal.num 45.75)].length ∧
     ((JSVal.arr ([(JSVal.num 2.3522, JSVal.num 48.8566), (.num 4.85, .num 45.75)].map
        fun p => JSVal.arr [p.1, p.2])).map swapLngLat
        >>= fun once => once.map swapLngLat)
      = .ok (.arr ([(JSVal.num 2.3522, JSVal.num 48.8566), (.num 4.85, .num 45.75)].map
        fun p => JSVal.arr [p.1, p.2]))) ∧
    (∃ body : JSVal,
      (runFrom parisState (calculateRoute sampleHost
        (sampleNet (.ok lyonGeocode) (.ok lyonDirections)) parisState)).2.requests =
        [geocodeRequest sampleHost parisState.destination,
          directionsRequest sampleHost body] ∧
      (body.getProp "coordinates" >>= fun coordinates => coordinates.getIndex 1)
        = .ok (.arr [.num 4.85, .num 45.75])) :=
  coordinate_reordering_involutive sampleHost
    (sampleNet (.ok lyonGeocode) (.ok lyonDirections)) parisState
    (.num 4.85) (.num 45.75) [(.num 2.3522, .num 48.8566), (.num 4.85, .num 45.75)]
    lyonGeocode _ _ (.num 4.85) (.num 45.75) _ rfl rfl rfl rfl rfl rfl

/-! ## C2: what a failure inside `calculateRoute` leaves behind -/

/-- C2, as stated, fails: when the destination is geocoded and the directions request is
rejected, the failure is caught and logged, yet `destinationCoords` has already been set
to the geocoded destination and differs from its value before the call. -/
theorem calculateRoute_failure_moves_destination :
    (runFrom parisState (calculateRoute sampleHost rejectingNet parisState)).2.console
      = [.route (.requestFailed 500)] ∧
    (runFrom parisState
      (calculateRoute sampleHost rejectingNet parisState)).2.state.destinationCoords
      = .arr [.num 45.75, .num 4.85] ∧
    (runFrom parisState
      (calculateRoute sampleHost rejectingNet parisState)).2.state.destinationCoords
      ≠ parisState.destinationCoords := by
  refine ⟨rfl, rfl, ?_⟩
  intro h
  cases h

/-- C2, amended: `calculateRoute` never propagates an error. When geocoding the
destination fails, the state is the state before the call. When the destination is
geocoded and the directions request is rejected, or its response has no readable
geometry, only `destinationCoords` differs from the state before: it holds the geocoded
destination, `route` and `routeInfo` are unchanged. Whenever a failure is caught,
`routeInfo` is unchanged, and so is every field other than `destinationCoords` and
`route`. -/
theorem calculateRoute_failure_state (host : Host) (net : Net) (s : State) :
    (runFrom s (calculateRoute host net s)).1 = .ok () ∧
    (∀ e, net (geocodeRequest host s.destination) >>= firstCandidate = .error e →
      (runFrom s (calculateRoute host net s)).2.state = s) ∧
    (∀ destCoords body e, s.startCoords.truthy = true → s.destination.truthy = true →
      net (geocodeRequest host s.destination) >>= firstCandidate = .ok destCoords →
      routeBody s.startCoords destCoords s.avoidTolls = .ok body →
      net (directionsRequest host body) >>= routeGeometry = .error e →
      (runFrom s (calculateRoute host net s)).2.state
        = { s with destinationCoords := destCoords }) ∧
    ((runFrom s (calculateRoute host net s)).2.console ≠ [] →
      (runFrom s (calculateRoute host net s)).2.state.routeInfo = s.routeInfo ∧
      ∃ destCoords route, (runFrom s (calculateRoute host net s)).2.state
        = { s with destinationCoords := destCoords, route := route }) := by
  rw [calculateRoute_run]
  refine ⟨?_, ?_, ?_, ?_⟩
  · split
    · rfl
    · split
      · rfl
      · split
        · rfl
        · split
          · rfl
          · split
            · rfl
            · split <;> rfl
  · intro e hgeo
    split
    · rfl
    · simp only [hgeo]
  · intro destCoords body e hstart hdest hgeo hbody hdir
    simp only [hstart, hdest, Bool.not_true, Bool.or_self, Bool.false_eq_true, if_false, hgeo,
      hbody]
    cases hnet : net (directionsRequest host body) with
    | error e1 => rfl
    | ok data =>
      simp only [hnet, bind, Except.bind] at hdir
      simp only [hdir]
  · split
    · intro h
      exact absurd rfl h
    · split
      · intro _
        exact ⟨rfl, s.destinationCoords, s.route, rfl⟩
      · split
        · intro _
          exact ⟨rfl, _, s.route, rfl⟩
        · split
          · intro _
            exact ⟨rfl, _, s.route, rfl⟩
          · split
            · intro _
              exact ⟨rfl, _, s.route, rfl⟩
            · split
              · intro _
                exact ⟨rfl, _, _, rfl⟩
              · intro h
                exact absurd rfl h

/-- C2, amended, on a geocoding without candidates and on a rejected directions
request. -/
theorem calculateRoute_failure_state_witness :
    (runFrom parisState
      (calculateRoute sampleHost noCandidateNet parisState)).2.state = parisState ∧
    (runFrom parisState (calculateRoute sampleHost rejectingNet parisState)).2.state
      = { parisState with destinationCoords := .arr [.num 45.75, .num 4.85] } ∧
    (runFrom parisState
      (calculateRoute sampleHost noSummaryNet parisState)).2.state.routeInfo
      = parisState.routeInfo :=
  ⟨(calculateRoute_failure_state sampleHost noCandidateNet parisState).2.1 .typeError rfl,
   (calculateRoute_failure_state sampleHost rejectingNet parisState).2.2.1
      _ _ (.requestFailed 500) rfl rfl rfl rfl rfl,
   ((calculateRoute_failure_state sampleHost noSummaryNet parisState).2.2.2
      (by
        intro h
        have hc : (runFrom parisState (calculateRoute sampleHost noSummaryNet parisState)).2.console
            = [.route .typeError] := rfl
        rw [hc] at h
        cases h)).1⟩

/-- The case left out of the amended C2: a directions response with a geometry and no
`properties.summary` makes `calculateRoute` store the new route and then fail while
reading the summary, so the route changes and `routeInfo` does not. -/
theorem calculateRoute_missing_summary :
    (runFrom parisState (calculateRoute sampleHost noSummaryNet parisState)).2.state
      = { parisState with
          destinationCoords := .arr [.num 45.75, .num 4.85]
          route := .arr [.arr [.num 48.8566, .num 2.3522], .arr [.num 45.75, .num 4.85]] } ∧
    (runFrom parisState (calculateRoute sampleHost noSummaryNet parisState)).2.console
      = [.route .typeError] :=
  ⟨rfl, rfl⟩

/-! ## C4: who catches a geocoding failure -/

/-- In the start field's `onChange`, a failure of `geocodeAddress` is the result of the
handler: nothing catches it. The state is left as it was. -/
theorem startOnChange_geocoding_failure (host : Host) (net : Net) (s : State) (val : JSVal)
    (e : JSError) (hloc : (val.optProp "isLocation").truthy = false)
    (hlabel : (val.optProp "label").truthy = true)
    (hgeo : net (geocodeRequest host (val.optProp "label")) >>= firstCandidate = .error e) :
    runFrom s (startOnChange host net s val) =
      (.error e, { state := s, requests := [geocodeRequest host (val.optProp "label")],
                   console := [] }) := by
  rw [startOnChange_run]
  simp only [hloc, hlabel, Bool.false_eq_true, if_false, if_true, hgeo]

/-- C4 on the failing inputs: with the suggestion `Lyon` picked as start, a rejected
geocoding request and a geocoding without candidates both end the start field's
`onChange` with the error (the promise it returns is rejected), `startCoords` keeping
its value; `calculateRoute` ends normally on the same failures. -/
theorem startOnChange_propagates_geocoding_failure :
    (runFrom parisState (startOnChange sampleHost offlineNet parisState lyonOption)).1
      = .error (.requestFailed 0) ∧
    (runFrom parisState (startOnChange sampleHost noCandidateNet parisState lyonOption)).1
      = .error .typeError ∧
    (runFrom parisState
      (startOnChange sampleHost offlineNet parisState lyonOption)).2.state.startCoords
      = parisState.startCoords ∧
    (runFrom parisState
      (startOnChange sampleHost noCandidateNet parisState lyonOption)).2.state.startCoords
      = parisState.startCoords ∧
    (runFrom parisState (calculateRoute sampleHost offlineNet parisState)).1 = .ok () ∧
    (runFrom parisState (calculateRoute sampleHost noCandidateNet parisState)).1 = .ok () :=
  ⟨rfl, rfl, rfl, rfl, rfl, rfl⟩

/-! ## C7: inputs shorter than three code units -/

/-- C7: for an input of length below 3, the input-change handler of the start field and
the one of the destination field send no request and set the field's suggestion list to
the empty list, whatever it held; `fetchAutocomplete` itself does nothing but call
`setOptions([])`. -/
theorem short_input_clears_suggestions (host : Host) (net : Net) (s : State)
    (val : JSString) (hshort : val.length < 3) :
    runFrom s (startOnInputChange host net val) =
      (.ok (), { state := { s with startInput := val, startOptions := .arr [] },
                 requests := [], console := [] }) ∧
    runFrom s (endOnInputChange host net val) =
      (.ok (), { state := { s with endInput := val, endOptions := .arr [] },
                 requests := [], console := [] }) ∧
    (∀ setOptions : JSVal → Eff Unit,
      fetchAutocomplete host net val setOptions = setOptions (.arr [])) := by
  refine ⟨?_, ?_, ?_⟩
  · rw [startOnInputChange_run, if_pos hshort]
  · rw [endOnInputChange_run, if_pos hshort]
  · intro setOptions
    unfold fetchAutocomplete
    rw [if_pos hshort]

/-- C7 for the input `Ly`, typed over a field that shows suggestions. -/
theorem short_input_clears_suggestions_witness :
    runFrom { parisState with startOptions := .arr [lyonOption] }
        (startOnInputChange sampleHost lyonNet (jsStr "Ly")) =
      (.ok (), { state := { parisState with startInput := jsStr "Ly", startOptions := .arr [] },
                 requests := [], console := [] }) ∧
    runFrom { parisState with endOptions := .arr [lyonOption] }
        (endOnInputChange sampleHost lyonNet (jsStr "Ly")) =
      (.ok (), { state := { parisState with endInput := jsStr "Ly", endOptions := .arr [] },
                 requests := [], console := [] }) ∧
    (∀ setOptions : JSVal → Eff Unit,
      fetchAutocomplete sampleHost lyonNet (jsStr "Ly") setOptions = setOptions (.arr [])) :=
  ⟨(short_input_clears_suggestions sampleHost lyonNet
      { parisState with startOptions := .arr [lyonOption] } (jsStr "Ly") (by decide)).1,
   (short_input_clears_suggestions sampleHost lyonNet
      { parisState with endOptions := .arr [lyonOption] } (jsStr "Ly") (by decide)).2.1,
   (short_input_clears_suggestions sampleHost lyonNet parisState (jsStr "Ly")
      (by decide)).2.2⟩

/-! ## C6: reporting an incident -/

/-- C6: `handleAddIncident` leaves the whole state as it is when the user position is
unknown or no category is selected; otherwise it appends exactly one entry
`{type = selected category, position = user position}` after the previous entries, closes
the dialog, clears the selected category and changes no other field. Along every sequence
of events of the component, the incident list of an earlier state is a prefix of the
incident list of every later state. -/
theorem handleAddIncident_appends (host : Host) (s : State) :
    ((s.userPosition.truthy = false ∨ s.selectedIncident = []) →
      runFrom s (handleAddIncident s) =
        (.ok (), { state := s, requests := [], console := [] })) ∧
    ((s.userPosition.truthy = true ∧ s.selectedIncident ≠ []) →
      runFrom s (handleAddIncident s) =
        (.ok (), { state := { s with
                     incidents := s.incidents ++
                       [{ type := s.selectedIncident, position := s.userPosition }]
                     incidentDialogOpen := false
                     selectedIncident := [] },
                   requests := [], console := [] })) ∧
    (∀ earlier later : List Action,
      (run host s earlier).incidents <+: (run host s (earlier ++ later)).incidents) := by
  refine ⟨?_, ?_, ?_⟩
  · intro h
    rw [handleAddIncident_run]
    rcases h with h | h
    · simp [h]
    · simp [h]
  · intro h
    rw [handleAddIncident_run]
    have hne : s.selectedIncident.isEmpty = false := by
      cases hsel : s.selectedIncident with
      | nil => exact absurd hsel h.2
      | cons u t => rfl
    simp [h.1, hne]
  · intro earlier later
    have hrun : run host s (earlier ++ later) = run host (run host s earlier) later := by
      simp [run, List.foldl_append]
    rw [hrun]
    exact run_incidents host later (run host s earlier)

/-- C6 on a state without selected category, on a state with the category `accident`,
and on a sequence of three events. -/
theorem handleAddIncident_appends_witness :
    runFrom parisState (handleAddIncident parisState) =
      (.ok (), { state := parisState, requests := [], console := [] }) ∧
    runFrom reportingState (handleAddIncident reportingState) =
      (.ok (), { state := { reportingState with
                   incidents := reportingState.incidents ++
                     [{ type := jsStr "accident", position := reportingState.userPosition }]
                   incidentDialogOpen := false
                   selectedIncident := [] },
                 requests := [], console := [] }) ∧
    (run sampleHost reportingState [.confirmIncident]).incidents <+:
      (run sampleHost reportingState
        ([.confirmIncident] ++ [.selectIncident (jsStr "police"), .confirmIncident])).incidents :=
  ⟨(handleAddIncident_appends sampleHost parisState).1 (Or.inr rfl),
   (handleAddIncident_appends sampleHost reportingState).2.1 ⟨rfl, by decide⟩,
   (handleAddIncident_appends sampleHost reportingState).2.2 [.confirmIncident]
     [.selectIncident (jsStr "police"), .confirmIncident]⟩

/-! ## C10: geolocation bootstrap -/

/-- C10 on its three outcomes: a position `(lat, lon)` becomes both the user position and
the start position; an error reported by the browser sets the user position to the
fallback `[48.8566, 2.3522]` and leaves the start position; a browser without
`navigator.geolocation` changes nothing, so that from the initial state the user position
stays `null` and is not the fallback. -/
theorem geolocationEffect_outcomes (s : State) (lat lon : ℚ) (code : Nat) :
    (runFrom s (geolocationEffect (some (.success lat lon)))).2.state =
      { s with userPosition := .arr [.num lat, .num lon],
               startCoords := .arr [.num lat, .num lon] } ∧
    (runFrom s (geolocationEffect (some (.failure code)))).2.state =
      { s with userPosition := .arr [.num 48.8566, .num 2.3522] } ∧
    (runFrom s (geolocationEffect none)).2.state = s ∧
    (runFrom State.initial (geolocationEffect none)).2.state.userPosition = .null ∧
    (runFrom State.initial (geolocationEffect none)).2.state.userPosition
      ≠ .arr [.num 48.8566, .num 2.3522] := by
  refine ⟨rfl, rfl, rfl, rfl, ?_⟩
  intro h
  cases h

end HomePage
